import Mathlib

/-!
# Verification development for the px command-line client

A shallow embedding of the node listing handler (handler/node/list.go), the
cluster description handler (handler/cluster/describe.go), the claim
description formatter (cmd/describePvc.go), the resource correlation
operations exercised by pkg/portworx/objs_test.go, the plugin handling
(cmd/plugin.go) and the connection setup (pkg/portworx/connect.go and
pkg/kubernetes/connect.go).

Conventions of the embedding:
* Go strings are Lean strings, Go slices are Lean lists.
* A Go pair (value, error) is either a Lean pair whose second component is
  an Option (when the value is meaningful together with the error) or an Except.
* uint64 values are natural numbers, every addition reduced modulo 2^64.
* A Go map[string]bool that only ever stores true is the list of its keys.
* The test len(s) == 0 on a string is the comparison with the empty string, a
  nil slice is the empty list.
* Calls that leave the program (file system, network, x509, orchestrator) are
  fields of a structure describing the surroundings of the call.
-/

set_option autoImplicit false

namespace Px

/-! ## Data model -/

/-- StoragePool: the two capacity counters of api.StoragePool read by the handlers. -/
structure StoragePool where
  Used : Nat
  TotalSize : Nat
deriving DecidableEq, Repr

/-- StorageNode: the fields of api.StorageNode read by the handlers. -/
structure StorageNode where
  Id : String
  Hostname : String
  MgmtIp : String
  SchedulerNodeName : String
  Pools : List StoragePool
deriving DecidableEq, Repr

/-- The modulus of unsigned 64-bit arithmetic. -/
def u64 : Nat := 2 ^ 64

/-! ## util helpers used by the handlers -/

/-- Modelled from the spec: util.ListContains is declared outside the available
sources (only its tests are present). It reports whether the string occurs in
the list as a whole element. -/
def ListContains (list : List String) (s : String) : Bool :=
  match list with
  | [] => false
  | value :: rest => if value = s then true else ListContains rest s

/-- Modelled from the spec: util.ListHaveMatch is declared outside the available
sources (only its tests are present). The candidates are tried in the order
given (identifier first, then hostname, then management IP, then scheduler
name at its call site) and the first one that occurs in the list is returned
together with true; with no common element the result is the empty string
and false. -/
def ListHaveMatch (list : List String) (candidates : List String) : String × Bool :=
  match candidates with
  | [] => ("", false)
  | m :: rest => if ListContains list m then (m, true) else ListHaveMatch list rest

/-! ## handler/node/list.go -/

/-- The four strings of a node that an identifier is compared with, in the
order in which getNodes passes them to util.ListHaveMatch. -/
def nodeCandidates (n : StorageNode) : List String :=
  [n.Id, n.Hostname, n.MgmtIp, n.SchedulerNodeName]

/-- State of the first loop of getNodes: the slice of kept nodes and the keys
of the foundNodes map. -/
structure GetNodesState where
  nodes : List StorageNode
  foundNodes : List String
deriving DecidableEq, Repr

/-- One iteration of the first loop of getNodes (list.go lines 105 to 120). -/
def getNodesStep (nodeIdentifiers : List String) (st : GetNodesState) (n : StorageNode) :
    GetNodesState :=
  if nodeIdentifiers.length ≠ 0 then
    let r := ListHaveMatch nodeIdentifiers (nodeCandidates n)
    if r.2 = false then
      st
    else
      { nodes := st.nodes ++ [n], foundNodes := r.1 :: st.foundNodes }
  else
    { st with nodes := st.nodes ++ [n] }

/-- The first loop of getNodes, started from an empty slice and an empty map. -/
def getNodesLoop (nodeIdentifiers : List String) (ns : List StorageNode) : GetNodesState :=
  ns.foldl (getNodesStep nodeIdentifiers) { nodes := [], foundNodes := [] }

/-- The second loop of getNodes (list.go lines 123 to 130): the first supplied
identifier that is not a key of foundNodes, if any. -/
def firstNotFound (nodeIdentifiers : List String) (foundNodes : List String) : Option String :=
  match nodeIdentifiers with
  | [] => none
  | f :: rest => if ListContains foundNodes f = false then some f else firstNotFound rest foundNodes

/-- The method nodesGetFormatter.getNodes. The first argument is the outcome of
p.nodes.GetNodes(), the second the field p.nodeIdentifiers. The result is the
returned slice paired with the message of the returned error, if any. -/
def getNodes (fetched : Except String (List StorageNode)) (nodeIdentifiers : List String) :
    List StorageNode × Option String :=
  match fetched with
  | .error err => ([], some err)
  | .ok ns =>
    let st := getNodesLoop nodeIdentifiers ns
    if nodeIdentifiers.length ≠ 0 then
      match firstNotFound nodeIdentifiers st.foundNodes with
      | some f => (st.nodes, some ("Node with " ++ f ++ " not found"))
      | none => (st.nodes, none)
    else
      (st.nodes, none)

/-! ### Specification-side predicates for getNodes -/

/-- The predicate by which getNodes keeps a node: one of its four strings is
an element of the identifier list. -/
def nodeMatches (ids : List String) (n : StorageNode) : Prop :=
  n.Id ∈ ids ∨ n.Hostname ∈ ids ∨ n.MgmtIp ∈ ids ∨ n.SchedulerNodeName ∈ ids

instance instDecidableNodeMatches (ids : List String) (n : StorageNode) :
    Decidable (nodeMatches ids n) := by
  unfold nodeMatches
  infer_instance

/-- The first of a four strings of a node, taken in the order identifier, hostname,
management IP, scheduler name, that is an element of the identifier list. -/
def firstCandidate (ids : List String) (n : StorageNode) : Option String :=
  (nodeCandidates n).find? (fun c => decide (c ∈ ids))

/-- One iteration of the pool loop shared by getLine and describeClusterExec:
both counters are advanced in unsigned 64-bit arithmetic. -/
def poolStep (acc : Nat × Nat) (pool : StoragePool) : Nat × Nat :=
  ((acc.1 + pool.Used) % u64, (acc.2 + pool.TotalSize) % u64)

/-- The totals (used, capacity) computed at the start of nodesGetFormatter.getLine
(list.go lines 208 to 214). -/
def getLineTotals (n : StorageNode) : Nat × Nat :=
  n.Pools.foldl poolStep (0, 0)

/-! ## handler/cluster/describe.go -/

/-- The totals (used, capacity) computed for each node in describeClusterExec
(describe.go lines 107 to 113). -/
def describeClusterTotals (n : StorageNode) : Nat × Nat :=
  n.Pools.foldl (fun acc pool => ((acc.1 + pool.Used) % u64, (acc.2 + pool.TotalSize) % u64)) (0, 0)

/-! ## Formatter output (handler/node/list.go and cmd/describePvc.go) -/

/-- Outcome of a toTabbed call: the text util.Printf wrote to the standard
output, the returned string, and the message of the returned error, if any. -/
structure TabbedOutput where
  printed : String
  out : String
  err : Option String
deriving DecidableEq, Repr

/-- The method nodesGetFormatter.toTabbed (list.go lines 162 to 190). What is
declared outside the available sources is a parameter: PxErrorMessage stands
for util.PxErrorMessage, table for the text that the tabby table writes into
the buffer from its header and its lines, getHeader and getLine for the cells
produced by the methods of these names. getLine never returns an error in the
source, so the guard after its call is not reachable. -/
def nodesGetFormatter.toTabbed (PxErrorMessage : String → String → String)
    (table : List String → List (List String) → String)
    (getHeader : List String) (getLine : StorageNode → List String)
    (fetched : Except String (List StorageNode)) (nodeIdentifiers : List String) :
    TabbedOutput :=
  let r := getNodes fetched nodeIdentifiers
  match r.2 with
  | some err =>
    { printed := "", out := "", err := some (PxErrorMessage err "Failed to get node list") }
  | none =>
    if r.1.length = 0 then
      { printed := "No resources found\n", out := "", err := none }
    else
      { printed := "", out := table getHeader (r.1.map getLine), err := none }

/-- The loop of pvcDescribeFormatter.toTabbed (describePvc.go lines 110 to 120):
the lines added to the table, or the first error of addVolumeDetails. The
counter i is the index of the entry at the head of the remaining list and
total is len(pvcs). -/
def pvcDescribeLoop {α : Type} (addVolumeDetails : α → Except String (List (List String)))
    (total : Nat) : Nat → List α → Except String (List (List String))
  | _, [] => .ok []
  | i, n :: rest =>
    match addVolumeDetails n with
    | .error err => .error err
    | .ok lines =>
      let gap : List (List String) := if total > 1 ∧ i ≠ total - 1 then [[""], [""]] else []
      match pvcDescribeLoop addVolumeDetails total (i + 1) rest with
      | .error err => .error err
      | .ok more => .ok (lines ++ gap ++ more)

/-- The method pvcDescribeFormatter.toTabbed (describePvc.go lines 91 to 124).
What is declared outside the available sources is a parameter: table for the
text written by the tabby table, addVolumeDetails for the lines that the method
of this name adds for one entry, filterPxPvcs for the identifier filter, and
fetched for the outcome of p.pxVolumeOps.GetPxPvcs(). -/
def pvcDescribeFormatter.toTabbed {α : Type} (table : List (List String) → String)
    (addVolumeDetails : α → Except String (List (List String)))
    (filterPxPvcs : List α → List String → List α × Option String)
    (fetched : Except String (List α)) (pvcNames : List String) : TabbedOutput :=
  match fetched with
  | .error err => { printed := "", out := "", err := some err }
  | .ok allPvcs =>
    let r := filterPxPvcs allPvcs pvcNames
    match r.2 with
    | some err => { printed := "", out := "", err := some err }
    | none =>
      if r.1.length = 0 then
        { printed := "No resources found\n", out := "", err := none }
      else
        match pvcDescribeLoop addVolumeDetails r.1.length 0 r.1 with
        | .error err => { printed := "", out := "", err := some err }
        | .ok lines => { printed := "", out := table lines, err := none }

/-! ### Concrete collaborators used to evaluate the formatters -/

/-- A plain table writer: cells joined by a blank, rows by a line break. -/
def plainTable (header : List String) (lines : List (List String)) : String :=
  "\n".intercalate ((header :: lines).map (fun row => " ".intercalate row))

/-- A message wrapper in the shape of util.PxErrorMessage: the message, a colon
and the text of the error. -/
def plainErrorMessage (err : String) (msg : String) : String :=
  msg ++ ": " ++ err

/-- An identifier filter in the shape the spec gives filterByIdentifiers, over
entries that are their own name: the entries named by some identifier are
kept, and the first identifier naming no entry is reported. -/
def plainFilter (all : List String) (identifiers : List String) : List String × Option String :=
  (all.filter (fun e => decide (e ∈ identifiers)),
   (identifiers.find? (fun f => decide (f ∉ all))).map (fun f => f ++ " not found"))

/-! ## Resource correlation operations (pkg/portworx)

The implementation of these operations is outside the available sources; only
pkg/portworx/objs_test.go, which exercises them, is present. -/

/-- Modelled from the spec: the error kinds of the correlation operations
(NotFound, Inconsistent, NoMatch), each a discrete value carrying the offending
identifier. Their declaration is outside the available sources. -/
inductive EngineError where
  | NotFound (id : String)
  | Inconsistent (id : String)
  | NoMatch (id : String)
deriving DecidableEq, Repr

/-- Modelled from the spec: the offending identifier carried by an error value;
the error declarations are outside the available sources. -/
def EngineError.identifier : EngineError → String
  | .NotFound id => id
  | .Inconsistent id => id
  | .NoMatch id => id

/-- Modelled from the spec: one placement of a replica set, a node identifier
and a pool index; its declaration is outside the available sources. -/
structure Placement where
  NodeId : String
  Pool : Nat
deriving DecidableEq, Repr

/-- Modelled from the spec: a replica set of the volume inventory, with its
ordinal identifier, placements, high-availability-increase field and re-add
list; its declaration is outside the available sources. The field HaIncrease is
a string, as in the exchange form quoted by objs_test.go. -/
structure ReplicaSet where
  Id : Nat
  Placements : List Placement
  HaIncrease : String
  ReAddOn : List String
deriving DecidableEq, Repr

/-- Modelled from the spec: a volume with identifier, display name,
attached-node identifier (empty when unattached), status already rendered as a
human string, and ordered replica sets; its declaration is outside the
available sources. -/
structure Volume where
  Id : String
  Name : String
  AttachedOn : String
  Status : String
  ReplicaSets : List ReplicaSet
deriving DecidableEq, Repr

/-- Modelled from the spec: the NodeIndex component, a read-only view over the
node inventory; its declaration is outside the available sources. -/
structure NodeIndex where
  nodes : List StorageNode
deriving DecidableEq, Repr

/-- Modelled from the spec: the last node of the inventory whose given field
equals the key (an index built by successive writes keeps the last write); the
index construction is outside the available sources. -/
def NodeIndex.byField (idx : NodeIndex) (field : StorageNode → String) (key : String) :
    Option StorageNode :=
  idx.nodes.reverse.find? (fun n => decide (field n = key))

/-- Modelled from the spec: NodeIndex.lookup, outside the available sources.
It tries the identifier first, then the hostname, then the management IP,
then the scheduler-assigned name, and returns the first exact match. -/
def NodeIndex.lookup (idx : NodeIndex) (key : String) : Option StorageNode :=
  match idx.byField StorageNode.Id key with
  | some n => some n
  | none =>
    match idx.byField StorageNode.Hostname key with
    | some n => some n
    | none =>
      match idx.byField StorageNode.MgmtIp key with
      | some n => some n
      | none => idx.byField StorageNode.SchedulerNodeName key

/-- Modelled from the spec: GetAttachedState (attachedState in the spec),
outside the available sources. An empty attached-node identifier gives the
literal Detached; otherwise the node is resolved through the index, giving
the text on followed by its hostname, or an error carrying the dangling
identifier when it does not resolve. -/
def GetAttachedState (idx : NodeIndex) (v : Volume) : Except EngineError String :=
  if v.AttachedOn = "" then
    .ok "Detached"
  else
    match idx.lookup v.AttachedOn with
    | some n => .ok ("on " ++ n.Hostname)
    | none => .error (.Inconsistent v.AttachedOn)

/-- Modelled from the spec: one entry of the replication topology, outside the
available sources: ordinal identifier, rendered locations, and the two fields
copied over verbatim. -/
structure ReplicaSetInfo where
  Id : Nat
  NodeInfo : List String
  HaIncrease : String
  ReAddOn : List String
deriving DecidableEq, Repr

/-- Modelled from the spec: the replication topology of a volume, outside the
available sources: one entry per replica set and the status of the volume. -/
structure ReplicationInfo where
  Rsi : List ReplicaSetInfo
  Status : String
deriving DecidableEq, Repr

/-- Modelled from the spec: the rendering of one placement, outside the
available sources: the hostname of the resolved node followed by the pool
index, or an error when the node identifier does not resolve. -/
def renderPlacement (idx : NodeIndex) (p : Placement) : Except EngineError String :=
  match idx.lookup p.NodeId with
  | some n => .ok (n.Hostname ++ " (Pool " ++ toString p.Pool ++ ")")
  | none => .error (.Inconsistent p.NodeId)

/-- Modelled from the spec: the rendering of the placements of one replica set
in order, stopping at the first that does not resolve; outside the available
sources. -/
def renderPlacements (idx : NodeIndex) : List Placement → Except EngineError (List String)
  | [] => .ok []
  | p :: rest =>
    match renderPlacement idx p with
    | .error e => .error e
    | .ok s =>
      match renderPlacements idx rest with
      | .error e => .error e
      | .ok more => .ok (s :: more)

/-- Modelled from the spec: the entries of the replication topology, one per
replica set in order, each holding the ordinal identifier of its set; outside
the available sources. -/
def replicaSetInfos (idx : NodeIndex) : List ReplicaSet → Except EngineError (List ReplicaSetInfo)
  | [] => .ok []
  | rs :: rest =>
    match renderPlacements idx rs.Placements with
    | .error e => .error e
    | .ok nodeInfo =>
      match replicaSetInfos idx rest with
      | .error e => .error e
      | .ok more =>
        .ok ({ Id := rs.Id, NodeInfo := nodeInfo, HaIncrease := rs.HaIncrease,
               ReAddOn := rs.ReAddOn } :: more)

/-- Modelled from the spec: GetReplicationInfo (replicationInfo in the spec),
outside the available sources. The status is the status of the volume, not
recomputed. -/
def GetReplicationInfo (idx : NodeIndex) (v : Volume) : Except EngineError ReplicationInfo :=
  match replicaSetInfos idx v.ReplicaSets with
  | .error e => .error e
  | .ok rsi => .ok { Rsi := rsi, Status := v.Status }

/-- Modelled from the spec: a container of a pod with the claim names it
mounts; its declaration is outside the available sources. -/
structure Container where
  Name : String
  Claims : List String
deriving DecidableEq, Repr

/-- Modelled from the spec: an orchestrator pod with namespace, name, the claim
names referenced by its volume-mount specs, and its containers; its declaration
is outside the available sources. -/
structure Pod where
  Namespace : String
  Name : String
  Volumes : List String
  Containers : List Container
deriving DecidableEq, Repr

/-- Modelled from the spec: an orchestrator claim with namespace, name and
bound volume name; its declaration is outside the available sources. -/
structure Claim where
  Namespace : String
  Name : String
  VolumeName : String
deriving DecidableEq, Repr

/-- Modelled from the spec: the joined output entity, outside the available
sources: claim name and namespace, backing volume, and the references of the
pods that mount the claim. -/
structure CorrelatedClaim where
  Name : String
  Namespace : String
  Volume : Volume
  PodNames : List String
deriving DecidableEq, Repr

/-- Modelled from the spec: the VolumeSet component, preserving input order;
its declaration is outside the available sources. -/
structure VolumeSet where
  vols : List Volume
deriving DecidableEq, Repr

/-- Modelled from the spec: VolumeSet.byName, outside the available sources. -/
def VolumeSet.byName (vs : VolumeSet) (name : String) : Option Volume :=
  vs.vols.find? (fun v => decide (v.Name = name))

/-- Modelled from the spec: the PodIndex component; its declaration is outside
the available sources. -/
structure PodIndex where
  pods : List Pod
deriving DecidableEq, Repr

/-- Modelled from the spec: PodIndex.podsUsingClaim, outside the available
sources. It scans the volume-mount specs of every pod and returns, in input
order, the pods whose specs reference the claim name; none found is an empty
list, not an error. -/
def PodIndex.podsUsingClaim (pi : PodIndex) (claimName : String) : Except EngineError (List Pod) :=
  .ok (pi.pods.filter (fun p => decide (claimName ∈ p.Volumes)))

/-- Modelled from the spec: the reference recorded for a pod, its namespace and
name separated by a slash; outside the available sources. -/
def podRef (p : Pod) : String :=
  p.Namespace ++ "/" ++ p.Name

/-- Modelled from the spec: GetPxPvcs (correlate in the spec), outside the
available sources. For each claim the bound volume is resolved by name, failing
the whole call when it is missing; the pods are resolved through
podsUsingClaim on the claim name and their references recorded. A mount spec
refers to a claim of the namespace of its pod, so of the pods returned those of
the namespace of the claim reference the claim and are recorded, which is what
objs_test.go (lines 176 to 182) asserts of every recorded pod. -/
def GetPxPvcs (vs : VolumeSet) (pi : PodIndex) : List Claim → Except EngineError (List CorrelatedClaim)
  | [] => .ok []
  | c :: rest =>
    match vs.byName c.VolumeName with
    | none => .error (.NotFound c.Name)
    | some v =>
      match pi.podsUsingClaim c.Name with
      | .error e => .error e
      | .ok pods =>
        match GetPxPvcs vs pi rest with
        | .error e => .error e
        | .ok more =>
          .ok ({ Name := c.Name, Namespace := c.Namespace, Volume := v,
                 PodNames := (pods.filter (fun p => decide (p.Namespace = c.Namespace))).map
                   podRef } :: more)

/-! ## Configuration read through config.CM() -/

/-- The fields of config.KubernetesAuthInfo read by the sources. -/
structure KubernetesAuthInfo where
  SecretName : String
  SecretNamespace : String
deriving DecidableEq, Repr

/-- The fields of config.AuthInfo read by the sources. -/
structure AuthInfo where
  Token : String
  KubernetesAuthInfo : KubernetesAuthInfo
deriving DecidableEq, Repr

/-- The fields of config.Cluster read by the sources. -/
structure Cluster where
  Secure : Bool
  CACertData : String
  TunnelServiceName : String
  TunnelServiceNamespace : String
  TunnelServicePort : String
deriving DecidableEq, Repr

/-! ## pkg/portworx/connect.go: the token stored in a secret -/

/-- What PxGetTokenFromSecret reads from the orchestrator: the error of
kubernetes.KubeConnectDefault, if any, and the outcome of fetching a secret by
namespace and name, a successful fetch giving the Data map of the secret as a
list of key and value pairs. -/
structure SecretStore where
  connectErr : Option String
  get : String → String → Except String (List (String × String))

/-- The function PxGetTokenFromSecret (connect.go lines 164 to 188). -/
def PxGetTokenFromSecret (store : SecretStore) (secretName secretNamespace : String) :
    Except String String :=
  match store.connectErr with
  | some err => .error err
  | none =>
    match store.get secretNamespace secretName with
    | .error err => .error err
    | .ok data =>
      match data.lookup "auth-token" with
      | none =>
        .error ("Token not found in secret. Token is expected to be under " ++
          "\x27auth-token\x27 in the secret")
      | some tokenRaw => .ok tokenRaw

/-! ## cmd/plugin.go -/

/-- The interface PluginHandler: Lookup gives a path and a found flag, Execute
receives the path, the arguments and the environment and gives the message of
its error, if any. -/
structure PluginHandler where
  Lookup : String → String × Bool
  Execute : String → List String → List String → Option String

/-- The method DefaultPluginHandler.Lookup (plugin.go lines 64 to 80). LookPath
stands for exec.LookPath, giving a path and the message of its error, if any;
Join stands for filepath.Join and ConfigDir for the configuration directory
given by config.CM().GetFlags(). -/
def DefaultPluginHandler.Lookup (LookPath : String → String × Option String)
    (Join : List String → String) (ConfigDir : String) (ValidPrefixes : List String)
    (filename : String) : String × Bool :=
  match ValidPrefixes with
  | [] => ("", false)
  | pre :: rest =>
    let name := pre ++ "-" ++ filename
    let r := LookPath name
    if r.2 ≠ none ∨ r.1 = "" then
      let r2 := LookPath (Join [ConfigDir, "bin", name])
      if r2.2 ≠ none ∨ r2.1 = "" then
        DefaultPluginHandler.Lookup LookPath Join ConfigDir rest filename
      else
        (r2.1, true)
    else
      (r.1, true)

/-- The resolution of a plugin file name as the claim words it: the path found
on the PATH, or failing that the path found under the bin directory of the
configuration directory; found means no error and a non-empty path. -/
def resolvePlugin (LookPath : String → String × Option String)
    (Join : List String → String) (ConfigDir : String) (name : String) : Option String :=
  if (LookPath name).2 = none ∧ (LookPath name).1 ≠ "" then
    some (LookPath name).1
  else if (LookPath (Join [ConfigDir, "bin", name])).2 = none ∧
      (LookPath (Join [ConfigDir, "bin", name])).1 ≠ "" then
    some (LookPath (Join [ConfigDir, "bin", name])).1
  else
    none

/-- The call strings.HasPrefix(s, "-"). -/
def hasDash (s : String) : Bool :=
  "-".data.isPrefixOf s.data

/-- The call strings.Replace(s, "-", "_", -1): every dash becomes an underscore. -/
def dashToUnderscore (s : String) : String :=
  String.mk (s.data.map (fun c => if c = '-' then '_' else c))

/-- The first loop of HandlePluginCommand (plugin.go lines 107 to 114): the
arguments before the first one that begins with a dash, dashes rewritten. -/
def nonFlagArgs (cmdArgs : List String) : List String :=
  match cmdArgs with
  | [] => []
  | arg :: rest => if hasDash arg then [] else dashToUnderscore arg :: nonFlagArgs rest

/-- The second loop of HandlePluginCommand (plugin.go lines 116 to 128). The slice
remainingArgs always is an initial part of its first value, so the state is its
length n. The result is foundBinaryPath and the length of remainingArgs when
the loop ends. -/
def findBinary (Lookup : String → String × Bool) (remainingArgs : List String) :
    Nat → String × Nat
  | 0 => ("", 0)
  | n + 1 =>
    let r := Lookup ("-".intercalate (remainingArgs.take (n + 1)))
    if r.2 = false then
      findBinary Lookup remainingArgs n
    else
      (r.1, n + 1)

/-- The function appendToEnv (plugin.go lines 163 to 165), the value already
rendered as by the verb v. -/
def appendToEnv (env : List String) (key : String) (val : String) : List String :=
  env ++ [key ++ "=" ++ val]

/-- The names of the environment variables handed to plugins, constants of the
package util declared outside the available sources. -/
structure EnvNames where
  EvInKubectlPluginMode : String
  EvPxcToken : String
  EvPortworxServiceName : String
  EvPortworxServiceNamespace : String
  EvPortworxServicePort : String
deriving DecidableEq, Repr

/-- What HandlePluginCommand reads from its surroundings: the current auth info
and cluster of config.CM(), the secret store, os.Environ(), the value of
util.InKubectlPluginMode() and the names of the environment variables. -/
structure PluginWorld where
  authInfo : AuthInfo
  currentCluster : Cluster
  store : SecretStore
  Environ : List String
  InKubectlPluginMode : Bool
  names : EnvNames

/-- What a call of HandlePluginCommand did: the calls of Execute it made, each
with path, arguments and environment, and the message of the returned error,
if any. -/
structure PluginRun where
  executed : List (String × List String × List String)
  err : Option String
deriving DecidableEq, Repr

/-- The function HandlePluginCommand (plugin.go lines 106 to 161). -/
def HandlePluginCommand (w : PluginWorld) (pluginHandler : PluginHandler)
    (cmdArgs : List String) : PluginRun :=
  let remainingArgs := nonFlagArgs cmdArgs
  let found := findBinary pluginHandler.Lookup remainingArgs remainingArgs.length
  if found.1 = "" then
    { executed := [], err := none }
  else
    let tokenResult : Except String String :=
      if w.authInfo.KubernetesAuthInfo.SecretName ≠ "" ∧
          w.authInfo.KubernetesAuthInfo.SecretNamespace ≠ "" then
        PxGetTokenFromSecret w.store w.authInfo.KubernetesAuthInfo.SecretName
          w.authInfo.KubernetesAuthInfo.SecretNamespace
      else
        .ok w.authInfo.Token
    match tokenResult with
    | .error err => { executed := [], err := some err }
    | .ok token =>
      let envVars := appendToEnv w.Environ w.names.EvInKubectlPluginMode
        (toString w.InKubectlPluginMode)
      let envVars := appendToEnv envVars w.names.EvPxcToken token
      let envVars := appendToEnv envVars w.names.EvPortworxServiceName
        w.currentCluster.TunnelServiceName
      let envVars := appendToEnv envVars w.names.EvPortworxServiceNamespace
        w.currentCluster.TunnelServiceNamespace
      let envVars := appendToEnv envVars w.names.EvPortworxServicePort
        w.currentCluster.TunnelServicePort
      let relayed := cmdArgs.drop found.2
      { executed := [(found.1, relayed, envVars)],
        err := pluginHandler.Execute found.1 relayed envVars }

/-! ### Concrete collaborators used to evaluate the plugin handling -/

/-- A secret store in which every fetch fails. -/
def failingStore : SecretStore :=
  { connectErr := none, get := fun _ _ => .error "secret not found" }

/-- A handler that knows the single plugin name foo and whose Execute succeeds. -/
def fooHandler : PluginHandler :=
  { Lookup := fun name => if name = "foo" then ("/usr/bin/pxc-foo", true) else ("", false),
    Execute := fun _ _ _ => none }

/-- A handler that knows the single plugin name foo-bar_baz, the name under which
the arguments foo and bar-baz are looked up, and whose Execute succeeds. -/
def barBazHandler : PluginHandler :=
  { Lookup := fun name =>
      if name = "foo-bar_baz" then ("/usr/bin/pxc-foo-bar_baz", true) else ("", false),
    Execute := fun _ _ _ => none }

/-- A handler that knows no plugin at all and whose Execute succeeds. -/
def emptyHandler : PluginHandler :=
  { Lookup := fun _ => ("", false), Execute := fun _ _ _ => none }

/-- The names of the environment variables used in the evaluations. -/
def plainNames : EnvNames :=
  { EvInKubectlPluginMode := "PXC_KUBECTL_PLUGIN_MODE", EvPxcToken := "PXC_TOKEN",
    EvPortworxServiceName := "PXC_PORTWORX_SERVICE_NAME",
    EvPortworxServiceNamespace := "PXC_PORTWORX_SERVICE_NAMESPACE",
    EvPortworxServicePort := "PXC_PORTWORX_SERVICE_PORT" }

/-- Surroundings with a token in the configuration and no secret configured. -/
def plainWorld : PluginWorld :=
  { authInfo := { Token := "tok", KubernetesAuthInfo := { SecretName := "", SecretNamespace := "" } },
    currentCluster := { Secure := false, CACertData := "", TunnelServiceName := "portworx-api",
                        TunnelServiceNamespace := "kube-system", TunnelServicePort := "9020" },
    store := failingStore, Environ := ["HOME=/root"], InKubectlPluginMode := false,
    names := plainNames }

/-- Surroundings in which the token is to be read from a secret that cannot be
fetched. -/
def secretWorld : PluginWorld :=
  { plainWorld with
    authInfo := { Token := "", KubernetesAuthInfo :=
      { SecretName := "px-token", SecretNamespace := "kube-system" } } }

/-! ## pkg/portworx/connect.go: dialing -/

/-- A certificate pool of crypto/x509, seen as the PEM data appended to it. -/
structure CertPool where
  pems : List String
deriving DecidableEq, Repr

/-- The values of grpc.DialOption that the source builds. -/
inductive DialOption where
  | WithInsecure
  | WithTransportCredentials (capool : CertPool)
deriving DecidableEq, Repr

/-- The calls into crypto/x509: SystemCertPool gives a pool and the message of
its error, if any; AppendCertsFromPEM gives the pool after the call and
whether a certificate was appended. -/
structure X509 where
  SystemCertPool : CertPool × Option String
  AppendCertsFromPEM : CertPool → String → CertPool × Bool

/-- The function PxAppendCaCertcontext (connect.go lines 147 to 162). The nil
slice is the empty list. The error returned when the data cannot be appended
is the variable err, which holds what SystemCertPool returned. -/
def PxAppendCaCertcontext (x : X509) (clusterInfo : Cluster) :
    List DialOption × Option String :=
  let sys := x.SystemCertPool
  if clusterInfo.CACertData ≠ "" then
    let appended := x.AppendCertsFromPEM sys.1 clusterInfo.CACertData
    if appended.2 = false then
      ([], sys.2)
    else
      ([DialOption.WithTransportCredentials appended.1], none)
  else
    ([DialOption.WithTransportCredentials sys.1], none)

/-- What PxConnectDefault reads from its surroundings: the endpoint of the
configuration at entry, the outcome of kubernetes.StartTunnel (an error, or
the endpoint the configuration gives once the tunnel is up), the current
cluster and auth info, the x509 calls, pxgrpc.Connect (giving a connection
handle) and the secret store. -/
structure ConnectWorld where
  GetEndpoint : String
  StartTunnel : Except String String
  currentCluster : Cluster
  authInfo : AuthInfo
  x509 : X509
  Connect : String → List DialOption → Except String Nat
  store : SecretStore

/-- What a call of PxConnectDefault did and returned: the calls of
pxgrpc.Connect it made, each with endpoint and dial options, then the metadata
of the returned context, the returned connection and the message of the
returned error, the first two absent when an error is returned. -/
structure ConnectRun where
  dialed : List (String × List DialOption)
  ctx : Option (List (String × String))
  conn : Option Nat
  err : Option String
deriving DecidableEq, Repr

/-- The function PxConnectDefault (connect.go lines 37 to 91). -/
def PxConnectDefault (w : ConnectWorld) : ConnectRun :=
  let tunnel : Except String String :=
    if w.GetEndpoint = "" then w.StartTunnel else .ok w.GetEndpoint
  match tunnel with
  | .error err => { dialed := [], ctx := none, conn := none, err := some err }
  | .ok endpoint =>
    let opts : List DialOption × Option String :=
      if w.currentCluster.Secure = true ∨ w.currentCluster.CACertData ≠ "" then
        PxAppendCaCertcontext w.x509 w.currentCluster
      else
        ([] ++ [DialOption.WithInsecure], none)
    match opts.2 with
    | some caerr => { dialed := [], ctx := none, conn := none, err := some caerr }
    | none =>
      match w.Connect endpoint opts.1 with
      | .error err =>
        { dialed := [(endpoint, opts.1)], ctx := none, conn := none, err := some err }
      | .ok conn =>
        let tokenResult : Except String String :=
          if w.authInfo.KubernetesAuthInfo.SecretName ≠ "" ∧
              w.authInfo.KubernetesAuthInfo.SecretNamespace ≠ "" then
            PxGetTokenFromSecret w.store w.authInfo.KubernetesAuthInfo.SecretName
              w.authInfo.KubernetesAuthInfo.SecretNamespace
          else
            .ok w.authInfo.Token
        match tokenResult with
        | .error err =>
          { dialed := [(endpoint, opts.1)], ctx := none, conn := none, err := some err }
        | .ok token =>
          let ctx : List (String × String) :=
            if token ≠ "" then [("authorization", "bearer " ++ token)] else []
          { dialed := [(endpoint, opts.1)], ctx := some ctx, conn := some conn, err := none }

/-! ### Concrete collaborators used to evaluate the connection -/

/-- The x509 calls on a system whose certificate pool loads: data is appended
when it begins with the PEM certificate header and refused otherwise. -/
def loadedX509 : X509 :=
  { SystemCertPool := ({ pems := [] }, none),
    AppendCertsFromPEM := fun pool data =>
      if "-----BEGIN CERTIFICATE-----".data.isPrefixOf data.data then
        ({ pems := pool.pems ++ [data] }, true)
      else
        (pool, false) }

/-- Surroundings whose current cluster is not marked secure and carries CA data
that is not a certificate; every connection attempt succeeds. -/
def badCaWorld : ConnectWorld :=
  { GetEndpoint := "portworx:9020", StartTunnel := .error "tunnel not started",
    currentCluster := { Secure := false, CACertData := "not a certificate",
                        TunnelServiceName := "", TunnelServiceNamespace := "",
                        TunnelServicePort := "" },
    authInfo := { Token := "tok", KubernetesAuthInfo := { SecretName := "", SecretNamespace := "" } },
    x509 := loadedX509, Connect := fun _ _ => .ok 1, store := failingStore }

/-! ## pkg/kubernetes/connect.go -/

/-- The fields of contextconfig.ClientContext read by KubeConnect. -/
structure ClientContext where
  Name : String
  Kubeconfig : String
deriving DecidableEq, Repr

/-- What KubeConnect reads from its surroundings: the two loaders of
contextconfig (by configuration file, and by configuration file and context
name), os.Getenv, the loading of the client configuration for an explicit
kubeconfig path, and kubernetes.NewForConfig giving a client handle. -/
structure KubeWorld where
  GetCurrent : String → Except String ClientContext
  GetNamedContext : String → String → Except String ClientContext
  Getenv : String → String
  ClientConfig : String → Except String String
  NewForConfig : String → Except String Nat

/-- The end of KubeConnect (connect.go lines 57 to 71), for the kubeconfig path
in use: the returned client configuration, seen as the path it loads from,
and the client handle. -/
def kubeClientFor (w : KubeWorld) (kubeconfig : String) : Except String (String × Nat) :=
  match w.ClientConfig kubeconfig with
  | .error err => .error ("Unable to configure kubernetes client: " ++ err ++ "\n")
  | .ok r =>
    match w.NewForConfig r with
    | .error err => .error ("Unable to connect to Kubernetes: " ++ err ++ "\n")
    | .ok clientset => .ok (kubeconfig, clientset)

/-- The part of KubeConnect that follows the loading of the context (connect.go
lines 48 to 71). -/
def kubeConnectWith (w : KubeWorld) (pxctx : ClientContext) : Except String (String × Nat) :=
  let kubeconfig := if pxctx.Kubeconfig = "" then w.Getenv "KUBECONFIG" else pxctx.Kubeconfig
  if kubeconfig = "" then
    .error ("No kubeconfig found in context " ++ pxctx.Name ++ "\n")
  else
    kubeClientFor w kubeconfig

/-- The function KubeConnect (connect.go lines 33 to 72). -/
def KubeConnect (w : KubeWorld) (cfgFile context : String) : Except String (String × Nat) :=
  let loaded :=
    if context = "" then w.GetCurrent cfgFile else w.GetNamedContext cfgFile context
  match loaded with
  | .error err => .error err
  | .ok pxctx => kubeConnectWith w pxctx

/-! ### Concrete collaborators used to evaluate KubeConnect -/

/-- Surroundings of KubeConnect: the current context is named default and has no
kubeconfig, the context named lab has the kubeconfig /etc/lab.conf, the
variable KUBECONFIG is not set, and every client can be built. -/
def plainKube : KubeWorld :=
  { GetCurrent := fun _ => .ok { Name := "default", Kubeconfig := "" },
    GetNamedContext := fun _ name =>
      if name = "lab" then .ok { Name := "lab", Kubeconfig := "/etc/lab.conf" }
      else .error "context not found",
    Getenv := fun _ => "",
    ClientConfig := fun path => .ok path,
    NewForConfig := fun _ => .ok 7 }

/-! ## The token rule -/

/-- The rule for the token as the claim words it, to be compared with the code of
PxConnectDefault and HandlePluginCommand: the token read from the secret when
both the configured secret name and secret namespace are non-empty, a failure
to read it being an error, and the configured token otherwise. -/
def selectToken (authInfo : AuthInfo) (store : SecretStore) : Except String String :=
  if authInfo.KubernetesAuthInfo.SecretName ≠ "" ∧
      authInfo.KubernetesAuthInfo.SecretNamespace ≠ "" then
    PxGetTokenFromSecret store authInfo.KubernetesAuthInfo.SecretName
      authInfo.KubernetesAuthInfo.SecretNamespace
  else
    .ok authInfo.Token

/-! ### Concrete collaborators used to evaluate the token rule -/

/-- A secret store holding the secret px-token of the namespace kube-system, with
a token under the key auth-token. -/
def tokenStore : SecretStore :=
  { connectErr := none,
    get := fun secretNamespace secretName =>
      if secretNamespace = "kube-system" ∧ secretName = "px-token" then
        .ok [("name", "px-token"), ("auth-token", "sekret")]
      else
        .error "secret not found" }

/-- Surroundings of PxConnectDefault with an endpoint, an insecure cluster, a
configured token and the secret px-token configured and readable. -/
def secretConnectWorld : ConnectWorld :=
  { GetEndpoint := "portworx:9020", StartTunnel := .error "tunnel not started",
    currentCluster := { Secure := false, CACertData := "", TunnelServiceName := "",
                        TunnelServiceNamespace := "", TunnelServicePort := "" },
    authInfo := { Token := "tok", KubernetesAuthInfo :=
      { SecretName := "px-token", SecretNamespace := "kube-system" } },
    x509 := loadedX509, Connect := fun _ _ => .ok 1, store := tokenStore }

/-- The same surroundings with a secret store in which every fetch fails. -/
def lostSecretConnectWorld : ConnectWorld :=
  { secretConnectWorld with store := failingStore }

/-- Surroundings of HandlePluginCommand with a configured token and the secret
px-token configured and readable. -/
def tokenPluginWorld : PluginWorld :=
  { plainWorld with
    authInfo := { Token := "tok", KubernetesAuthInfo :=
      { SecretName := "px-token", SecretNamespace := "kube-system" } },
    store := tokenStore }

/-! ## Auxiliary lemmas -/

theorem ListContains_iff (list : List String) (s : String) :
    ListContains list s = true ↔ s ∈ list := by
  induction list with
  | nil => simp [ListContains]
  | cons value rest ih =>
    unfold ListContains
    by_cases h : value = s
    · simp [h]
    · have h2 : ¬ s = value := fun e => h e.symm
      simp [h, h2, ih]

theorem ListContains_eq_decide (list : List String) (s : String) :
    ListContains list s = decide (s ∈ list) := by
  by_cases h : s ∈ list
  · simp [h, (ListContains_iff list s).2 h]
  · have : ListContains list s ≠ true := fun e => h ((ListContains_iff list s).1 e)
    simp [h, this]

/-- ListHaveMatch in closed form: the first candidate that occurs in the list. -/
theorem ListHaveMatch_eq_find (list candidates : List String) :
    ListHaveMatch list candidates =
      match candidates.find? (fun c => decide (c ∈ list)) with
      | some m => (m, true)
      | none => ("", false) := by
  induction candidates with
  | nil => simp [ListHaveMatch]
  | cons m rest ih =>
    unfold ListHaveMatch
    rw [ListContains_eq_decide]
    by_cases h : m ∈ list
    · simp [h, List.find?_cons]
    · simp [h, List.find?_cons, ih]

theorem ListHaveMatch_found_iff (list candidates : List String) :
    (ListHaveMatch list candidates).2 = true ↔ ∃ c ∈ candidates, c ∈ list := by
  rw [ListHaveMatch_eq_find]
  cases h : candidates.find? (fun c => decide (c ∈ list)) with
  | none =>
    simp only [Bool.false_eq_true, false_iff]
    rintro ⟨c, hc, hl⟩
    have := List.find?_eq_none.1 h c hc
    simp [hl] at this
  | some m =>
    simp only [true_iff]
    exact ⟨m, List.mem_of_find?_eq_some h, by simpa using List.find?_some h⟩

theorem found_iff_nodeMatches (ids : List String) (n : StorageNode) :
    (ListHaveMatch ids (nodeCandidates n)).2 = true ↔ nodeMatches ids n := by
  rw [ListHaveMatch_found_iff]
  simp [nodeCandidates, nodeMatches]

theorem firstCandidate_isSome_iff (ids : List String) (n : StorageNode) :
    (firstCandidate ids n).isSome = true ↔ nodeMatches ids n := by
  rw [← found_iff_nodeMatches, ListHaveMatch_eq_find]
  unfold firstCandidate
  cases (nodeCandidates n).find? (fun c => decide (c ∈ ids)) <;> simp

/-- The first loop of getNodes from an arbitrary state, for a non-empty
identifier list. -/
theorem getNodes_foldl (ids : List String) (hne : ids.length ≠ 0) (ns : List StorageNode)
    (st : GetNodesState) :
    ns.foldl (getNodesStep ids) st =
      { nodes := st.nodes ++ ns.filter (fun n => decide (nodeMatches ids n)),
        foundNodes := (ns.filterMap (firstCandidate ids)).reverse ++ st.foundNodes } := by
  induction ns generalizing st with
  | nil => simp
  | cons n rest ih =>
    rw [List.foldl_cons, ih]
    have hm := found_iff_nodeMatches ids n
    have hf := ListHaveMatch_eq_find ids (nodeCandidates n)
    have hs := firstCandidate_isSome_iff ids n
    unfold firstCandidate at hs
    unfold getNodesStep
    simp only [hne, ne_eq, not_false_eq_true, if_true]
    cases hc : (nodeCandidates n).find? (fun c => decide (c ∈ ids)) with
    | none =>
      rw [hc] at hf hs
      have hnm : ¬ nodeMatches ids n := by simpa using hs
      simp [hf, hnm, List.filterMap_cons, firstCandidate, hc]
    | some m =>
      rw [hc] at hf hs
      have hnm : nodeMatches ids n := by simpa using hs
      simp [hf, hnm, List.filterMap_cons, firstCandidate, hc]

/-- The first loop of getNodes for an empty identifier list keeps every node. -/
theorem getNodes_foldl_nil (ns : List StorageNode) (st : GetNodesState) :
    ns.foldl (getNodesStep []) st = { st with nodes := st.nodes ++ ns } := by
  induction ns generalizing st with
  | nil => simp
  | cons n rest ih =>
    rw [List.foldl_cons, ih]
    simp [getNodesStep]

theorem getNodes_fst (ns : List StorageNode) (ids : List String) :
    (getNodes (.ok ns) ids).1 = (getNodesLoop ids ns).nodes := by
  unfold getNodes
  dsimp only
  split
  · split <;> rfl
  · rfl

theorem poolStep_foldl (pools : List StoragePool) (a b : Nat) :
    pools.foldl poolStep (a % u64, b % u64) =
      ((a + (pools.map StoragePool.Used).sum) % u64,
       (b + (pools.map StoragePool.TotalSize).sum) % u64) := by
  induction pools generalizing a b with
  | nil => simp
  | cons p rest ih =>
    rw [List.foldl_cons]
    have : poolStep (a % u64, b % u64) p = ((a + p.Used) % u64, (b + p.TotalSize) % u64) := by
      simp [poolStep, Nat.mod_add_mod]
    rw [this, ih]
    simp [Nat.add_assoc]

theorem byField_some {idx : NodeIndex} {field : StorageNode → String} {key : String}
    {n : StorageNode} (h : idx.byField field key = some n) :
    n ∈ idx.nodes ∧ field n = key := by
  unfold NodeIndex.byField at h
  have h1 := List.mem_of_find?_eq_some h
  have h2 := List.find?_some h
  exact ⟨by simpa using h1, by simpa using h2⟩

theorem byField_none {idx : NodeIndex} {field : StorageNode → String} {key : String} :
    idx.byField field key = none ↔ ∀ n ∈ idx.nodes, field n ≠ key := by
  unfold NodeIndex.byField
  rw [List.find?_eq_none]
  simp

/-- A successful lookup returns a node of the index one of whose four strings
is the key. -/
theorem lookup_some {idx : NodeIndex} {key : String} {n : StorageNode}
    (h : idx.lookup key = some n) : n ∈ idx.nodes ∧ key ∈ nodeCandidates n := by
  unfold NodeIndex.lookup at h
  unfold nodeCandidates
  split at h
  · next m hm =>
    cases h
    have := byField_some hm
    exact ⟨this.1, by simp [this.2.symm]⟩
  · split at h
    · next m hm =>
      cases h
      have := byField_some hm
      exact ⟨this.1, by simp [this.2.symm]⟩
    · split at h
      · next m hm =>
        cases h
        have := byField_some hm
        exact ⟨this.1, by simp [this.2.symm]⟩
      · have := byField_some h
        exact ⟨this.1, by simp [this.2.symm]⟩

/-- The lookup fails exactly when the key is none of the four strings of any
node of the index. -/
theorem lookup_none_iff (idx : NodeIndex) (key : String) :
    idx.lookup key = none ↔ ∀ n ∈ idx.nodes, key ∉ nodeCandidates n := by
  constructor
  · intro h n hn hmem
    unfold NodeIndex.lookup at h
    split at h
    · cases h
    · next h1 =>
      split at h
      · cases h
      · next h2 =>
        split at h
        · cases h
        · next h3 =>
          simp only [nodeCandidates, List.mem_cons, List.mem_singleton, List.not_mem_nil,
            or_false] at hmem
          rcases hmem with e | e | e | e
          · exact byField_none.1 h1 n hn e.symm
          · exact byField_none.1 h2 n hn e.symm
          · exact byField_none.1 h3 n hn e.symm
          · exact byField_none.1 h n hn e.symm
  · intro h
    have hf : ∀ field : StorageNode → String, (∀ n, field n ∈ nodeCandidates n) →
        idx.byField field key = none := by
      intro field hfield
      apply byField_none.2
      intro n hn e
      exact h n hn (e ▸ hfield n)
    unfold NodeIndex.lookup
    rw [hf StorageNode.Id (by simp [nodeCandidates]),
      hf StorageNode.Hostname (by simp [nodeCandidates]),
      hf StorageNode.MgmtIp (by simp [nodeCandidates]),
      hf StorageNode.SchedulerNodeName (by simp [nodeCandidates])]

theorem replicaSetInfos_ids (idx : NodeIndex) (sets : List ReplicaSet)
    (rsi : List ReplicaSetInfo) (h : replicaSetInfos idx sets = .ok rsi) :
    rsi.map ReplicaSetInfo.Id = sets.map ReplicaSet.Id := by
  induction sets generalizing rsi with
  | nil =>
    unfold replicaSetInfos at h
    cases h
    rfl
  | cons rs rest ih =>
    unfold replicaSetInfos at h
    split at h
    · cases h
    · split at h
      · cases h
      · next more hmore =>
        cases h
        simp [ih more hmore]

/-! ## Node listing: the identifier filter of getNodes -/

/-- C1: for a successfully fetched node list, getNodes returns the list unchanged
when no identifier is supplied, and otherwise returns, in the order of the
fetched list and with every node kept at most once per occurrence, exactly the
nodes whose id, hostname, management IP or scheduler node name is equal, as a
whole string, to some supplied identifier. -/
theorem getNodes_returns_exact_matches (ns : List StorageNode) :
    (getNodes (.ok ns) []).1 = ns ∧
    ∀ (id : String) (ids : List String),
      (getNodes (.ok ns) (id :: ids)).1 =
        ns.filter (fun n => decide (n.Id ∈ id :: ids ∨ n.Hostname ∈ id :: ids ∨
          n.MgmtIp ∈ id :: ids ∨ n.SchedulerNodeName ∈ id :: ids)) := by
  refine ⟨?_, fun id ids => ?_⟩
  · rw [getNodes_fst, getNodesLoop, getNodes_foldl_nil]
    simp
  · rw [getNodes_fst, getNodesLoop, getNodes_foldl (id :: ids) (by simp)]
    simp [nodeMatches]

/-- C2: evaluation at the failing input. One node with id n1 and hostname h1 is
asked for by the identifiers n1, h1 and zzz. Only zzz matches nothing, yet the
returned error names h1, the hostname of the node that is returned. -/
theorem getNodes_error_names_matched_identifier :
    getNodes (.ok [⟨"n1", "h1", "10.0.0.1", "k1", []⟩]) ["n1", "h1", "zzz"] =
      ([⟨"n1", "h1", "10.0.0.1", "k1", []⟩], some "Node with h1 not found") := by
  decide

/-- C3: evaluation at the failing input. One node with id n1 and hostname h1 is
asked for by both its id and its hostname. Each identifier equals a field of the
node, the node is returned, and still an error reports h1 as not found. -/
theorem getNodes_error_although_all_identifiers_match :
    (∀ f ∈ ["n1", "h1"], f ∈ nodeCandidates ⟨"n1", "h1", "10.0.0.1", "k1", []⟩) ∧
    getNodes (.ok [⟨"n1", "h1", "10.0.0.1", "k1", []⟩]) ["n1", "h1"] =
      ([⟨"n1", "h1", "10.0.0.1", "k1", []⟩], some "Node with h1 not found") := by
  decide

/-- C4: with a non-empty identifier list, the keys that the first loop of
getNodes records in foundNodes are, node by node for the nodes that pass the
filter, the first of the strings id, hostname, management IP, scheduler node
name (in that order) that is an element of the identifier list. The keys are
listed most recent first, hence the reversal. -/
theorem getNodes_records_first_candidate (ns : List StorageNode) (id : String)
    (ids : List String) :
    (getNodesLoop (id :: ids) ns).foundNodes =
      (ns.filterMap (fun n =>
        [n.Id, n.Hostname, n.MgmtIp, n.SchedulerNodeName].find?
          (fun c => decide (c ∈ id :: ids)))).reverse ∧
    (getNodesLoop (id :: ids) ns).nodes =
      ns.filter (fun n =>
        ([n.Id, n.Hostname, n.MgmtIp, n.SchedulerNodeName].find?
          (fun c => decide (c ∈ id :: ids))).isSome) := by
  rw [getNodesLoop, getNodes_foldl (id :: ids) (by simp)]
  refine ⟨by simp only [List.append_nil]; rfl, ?_⟩
  simp only [List.nil_append]
  apply List.filter_congr
  intro n _
  have h := firstCandidate_isSome_iff (id :: ids) n
  unfold firstCandidate nodeCandidates at h
  by_cases hm : nodeMatches (id :: ids) n
  · simp only [hm, decide_True]
    exact (h.2 hm).symm
  · simp only [hm, decide_False]
    cases hc : ([n.Id, n.Hostname, n.MgmtIp, n.SchedulerNodeName].find?
        (fun c => decide (c ∈ id :: ids))).isSome with
    | false => rfl
    | true => exact absurd (h.1 hc) hm

/-! ## Capacity totals -/

/-- C5: the used and capacity totals computed in getLine, and identically in
describeClusterExec, are the sum of Used and the sum of TotalSize over the pools
of the node modulo 2^64, and both are 0 for a node without pools. -/
theorem pool_totals_are_sums_mod_two_pow_64 (n : StorageNode) :
    getLineTotals n =
      ((n.Pools.map StoragePool.Used).sum % 2 ^ 64,
       (n.Pools.map StoragePool.TotalSize).sum % 2 ^ 64) ∧
    describeClusterTotals n = getLineTotals n ∧
    getLineTotals { n with Pools := [] } = (0, 0) ∧
    describeClusterTotals { n with Pools := [] } = (0, 0) := by
  have h := poolStep_foldl n.Pools 0 0
  simp only [Nat.zero_add] at h
  refine ⟨?_, rfl, rfl, rfl⟩
  unfold getLineTotals
  exact h

/-! ## Formatters on a filter error -/

/-- C6, counterexample: one node n1 is fetched and the identifiers n1 and zzz are
supplied. The filter returns the matched node together with an error, and
toTabbed returns the empty string; with the identifier n1 alone the same node
is rendered. The claim formatter likewise returns the empty string when its
filter reports zzz beside the matched entry c1. -/
theorem toTabbed_discards_matched_entries :
    (getNodes (.ok [⟨"n1", "h1", "10.0.0.1", "k1", []⟩]) ["n1", "zzz"]).1 =
      [⟨"n1", "h1", "10.0.0.1", "k1", []⟩] ∧
    nodesGetFormatter.toTabbed plainErrorMessage plainTable ["Hostname"]
        (fun n => [n.Hostname]) (.ok [⟨"n1", "h1", "10.0.0.1", "k1", []⟩]) ["n1", "zzz"] =
      ⟨"", "", some "Failed to get node list: Node with zzz not found"⟩ ∧
    nodesGetFormatter.toTabbed plainErrorMessage plainTable ["Hostname"]
        (fun n => [n.Hostname]) (.ok [⟨"n1", "h1", "10.0.0.1", "k1", []⟩]) ["n1"] =
      ⟨"", "Hostname\nh1", none⟩ ∧
    plainFilter ["c1", "c2"] ["c1", "zzz"] = (["c1"], some "zzz not found") ∧
    pvcDescribeFormatter.toTabbed (plainTable []) (fun (n : String) => .ok [[n]]) plainFilter
        (.ok ["c1", "c2"]) ["c1", "zzz"] =
      ⟨"", "", some "zzz not found"⟩ := by
  refine ⟨by decide, by decide, by decide, by decide, by decide⟩

/-- C6, amended: whenever the identifier filter returns an error, both formatters
return the empty string as their output together with the error (wrapped by
util.PxErrorMessage with the text Failed to get node list for nodes, unchanged
for claims), whatever entries the filter returned beside the error. -/
theorem toTabbed_returns_only_error_on_filter_error :
    (∀ (PxErrorMessage : String → String → String)
        (table : List String → List (List String) → String) (getHeader : List String)
        (getLine : StorageNode → List String) (fetched : Except String (List StorageNode))
        (nodeIdentifiers : List String) (e : String),
        (getNodes fetched nodeIdentifiers).2 = some e →
        nodesGetFormatter.toTabbed PxErrorMessage table getHeader getLine fetched
            nodeIdentifiers =
          ⟨"", "", some (PxErrorMessage e "Failed to get node list")⟩) ∧
    (∀ (α : Type) (table : List (List String) → String)
        (addVolumeDetails : α → Except String (List (List String)))
        (filterPxPvcs : List α → List String → List α × Option String)
        (allPvcs : List α) (pvcNames : List String) (e : String),
        (filterPxPvcs allPvcs pvcNames).2 = some e →
        pvcDescribeFormatter.toTabbed table addVolumeDetails filterPxPvcs (.ok allPvcs)
            pvcNames =
          ⟨"", "", some e⟩) := by
  constructor
  · intro PxErrorMessage table getHeader getLine fetched nodeIdentifiers e h
    unfold nodesGetFormatter.toTabbed
    simp only [h]
  · intro α table addVolumeDetails filterPxPvcs allPvcs pvcNames e h
    unfold pvcDescribeFormatter.toTabbed
    simp only [h]

/-- Witness for C6, amended, at the inputs of the counterexample. -/
theorem toTabbed_returns_only_error_on_filter_error_witness :
    nodesGetFormatter.toTabbed plainErrorMessage plainTable ["Hostname"]
        (fun n => [n.Hostname]) (.ok [⟨"n1", "h1", "10.0.0.1", "k1", []⟩]) ["n1", "zzz"] =
      ⟨"", "", some (plainErrorMessage "Node with zzz not found" "Failed to get node list")⟩ ∧
    pvcDescribeFormatter.toTabbed (plainTable []) (fun (n : String) => .ok [[n]]) plainFilter
        (.ok ["c1", "c2"]) ["c1", "zzz"] =
      ⟨"", "", some "zzz not found"⟩ :=
  ⟨toTabbed_returns_only_error_on_filter_error.1 plainErrorMessage plainTable ["Hostname"]
      (fun n => [n.Hostname]) (.ok [⟨"n1", "h1", "10.0.0.1", "k1", []⟩]) ["n1", "zzz"]
      "Node with zzz not found" (by decide),
   toTabbed_returns_only_error_on_filter_error.2 String (plainTable [])
      (fun (n : String) => .ok [[n]]) plainFilter ["c1", "c2"] ["c1", "zzz"]
      "zzz not found" (by decide)⟩

/-! ## Attachment state -/

/-- C7: GetAttachedState returns the literal Detached, with no error, for a volume
whose attached-node identifier is empty; when the identifier is non-empty and
resolves to a node, that node belongs to the index, carries the identifier as
one of its four strings, and the result is the text on, a blank, and exactly
the hostname stored in that node. -/
theorem GetAttachedState_detached_or_on_hostname (idx : NodeIndex) (v : Volume) :
    (v.AttachedOn = "" → GetAttachedState idx v = .ok "Detached") ∧
    (∀ n : StorageNode, v.AttachedOn ≠ "" → idx.lookup v.AttachedOn = some n →
      n ∈ idx.nodes ∧ v.AttachedOn ∈ nodeCandidates n ∧
      GetAttachedState idx v = .ok ("on " ++ n.Hostname)) := by
  constructor
  · intro h
    simp [GetAttachedState, h]
  · intro n hne hl
    refine ⟨(lookup_some hl).1, (lookup_some hl).2, ?_⟩
    simp [GetAttachedState, hne, hl]

/-- Witness for C7: an unattached volume, and the volume V1 attached to node A of
the end-to-end scenario of the spec. -/
theorem GetAttachedState_detached_or_on_hostname_witness :
    GetAttachedState ⟨[⟨"A", "h1", "10.0.0.1", "k1", [⟨5, 10⟩]⟩, ⟨"B", "h2", "", "", []⟩]⟩
        ⟨"id0", "V0", "", "Detached", []⟩ = .ok "Detached" ∧
    GetAttachedState ⟨[⟨"A", "h1", "10.0.0.1", "k1", [⟨5, 10⟩]⟩, ⟨"B", "h2", "", "", []⟩]⟩
        ⟨"id1", "V1", "A", "UP", [⟨0, [⟨"A", 0⟩], "", []⟩]⟩ = .ok "on h1" :=
  ⟨(GetAttachedState_detached_or_on_hostname
      ⟨[⟨"A", "h1", "10.0.0.1", "k1", [⟨5, 10⟩]⟩, ⟨"B", "h2", "", "", []⟩]⟩
      ⟨"id0", "V0", "", "Detached", []⟩).1 rfl,
   ((GetAttachedState_detached_or_on_hostname
      ⟨[⟨"A", "h1", "10.0.0.1", "k1", [⟨5, 10⟩]⟩, ⟨"B", "h2", "", "", []⟩]⟩
      ⟨"id1", "V1", "A", "UP", [⟨0, [⟨"A", 0⟩], "", []⟩]⟩).2
        ⟨"A", "h1", "10.0.0.1", "k1", [⟨5, 10⟩]⟩ (by decide) (by decide)).2.2⟩

/-- C8: for a volume whose attached-node identifier is non-empty and is none of
the four strings of any node of the index, GetAttachedState returns an error
that carries the dangling identifier; the result is neither the empty string
nor Detached. -/
theorem GetAttachedState_dangling_reference_is_error (idx : NodeIndex) (v : Volume)
    (hne : v.AttachedOn ≠ "")
    (hdangling : ∀ n ∈ idx.nodes, v.AttachedOn ∉ nodeCandidates n) :
    (∃ e : EngineError, GetAttachedState idx v = .error e ∧ e.identifier = v.AttachedOn) ∧
    GetAttachedState idx v ≠ .ok "" ∧
    GetAttachedState idx v ≠ .ok "Detached" := by
  have hl := (lookup_none_iff idx v.AttachedOn).2 hdangling
  have hr : GetAttachedState idx v = .error (.Inconsistent v.AttachedOn) := by
    simp [GetAttachedState, hne, hl]
  refine ⟨⟨_, hr, rfl⟩, ?_, ?_⟩ <;> rw [hr] <;> intro h <;> cases h

/-- Witness for C8: the volume V2 attached to the absent node ghost, from the
end-to-end scenario of the spec. -/
theorem GetAttachedState_dangling_reference_is_error_witness :
    (∃ e : EngineError,
      GetAttachedState ⟨[⟨"A", "h1", "10.0.0.1", "k1", [⟨5, 10⟩]⟩, ⟨"B", "h2", "", "", []⟩]⟩
        ⟨"id2", "V2", "ghost", "UP", []⟩ = .error e ∧ e.identifier = "ghost") ∧
    GetAttachedState ⟨[⟨"A", "h1", "10.0.0.1", "k1", [⟨5, 10⟩]⟩, ⟨"B", "h2", "", "", []⟩]⟩
        ⟨"id2", "V2", "ghost", "UP", []⟩ ≠ .ok "" ∧
    GetAttachedState ⟨[⟨"A", "h1", "10.0.0.1", "k1", [⟨5, 10⟩]⟩, ⟨"B", "h2", "", "", []⟩]⟩
        ⟨"id2", "V2", "ghost", "UP", []⟩ ≠ .ok "Detached" :=
  GetAttachedState_dangling_reference_is_error
    ⟨[⟨"A", "h1", "10.0.0.1", "k1", [⟨5, 10⟩]⟩, ⟨"B", "h2", "", "", []⟩]⟩
    ⟨"id2", "V2", "ghost", "UP", []⟩ (by decide) (by decide)

/-! ## Replication topology -/

/-- C9: when GetReplicationInfo succeeds for a volume, the result has exactly one
entry per replica set of the volume, and the ordinal identifiers of the entries
are those of the replica sets of the volume in the same order. -/
theorem GetReplicationInfo_one_entry_per_replica_set (idx : NodeIndex) (v : Volume)
    (info : ReplicationInfo) (h : GetReplicationInfo idx v = .ok info) :
    info.Rsi.length = v.ReplicaSets.length ∧
    info.Rsi.map ReplicaSetInfo.Id = v.ReplicaSets.map ReplicaSet.Id := by
  unfold GetReplicationInfo at h
  split at h
  · cases h
  · next rsi hrsi =>
    cases h
    have hids := replicaSetInfos_ids idx v.ReplicaSets rsi hrsi
    refine ⟨?_, hids⟩
    have hl := congrArg List.length hids
    simpa using hl

/-- Witness for C9: a volume with two replica sets placed on the nodes A and B. -/
theorem GetReplicationInfo_one_entry_per_replica_set_witness :
    GetReplicationInfo ⟨[⟨"A", "h1", "10.0.0.1", "k1", [⟨5, 10⟩]⟩, ⟨"B", "h2", "", "", []⟩]⟩
        ⟨"id1", "V1", "A", "UP", [⟨0, [⟨"A", 0⟩], "", []⟩, ⟨1, [⟨"B", 1⟩], "", []⟩]⟩ =
      .ok ⟨[⟨0, ["h1 (Pool 0)"], "", []⟩, ⟨1, ["h2 (Pool 1)"], "", []⟩], "UP"⟩ ∧
    [(⟨0, ["h1 (Pool 0)"], "", []⟩ : ReplicaSetInfo), ⟨1, ["h2 (Pool 1)"], "", []⟩].length =
      [(⟨0, [⟨"A", 0⟩], "", []⟩ : ReplicaSet), ⟨1, [⟨"B", 1⟩], "", []⟩].length ∧
    [(⟨0, ["h1 (Pool 0)"], "", []⟩ : ReplicaSetInfo), ⟨1, ["h2 (Pool 1)"], "", []⟩].map
        ReplicaSetInfo.Id =
      [(⟨0, [⟨"A", 0⟩], "", []⟩ : ReplicaSet), ⟨1, [⟨"B", 1⟩], "", []⟩].map ReplicaSet.Id :=
  ⟨rfl,
   GetReplicationInfo_one_entry_per_replica_set
    ⟨[⟨"A", "h1", "10.0.0.1", "k1", [⟨5, 10⟩]⟩, ⟨"B", "h2", "", "", []⟩]⟩
    ⟨"id1", "V1", "A", "UP", [⟨0, [⟨"A", 0⟩], "", []⟩, ⟨1, [⟨"B", 1⟩], "", []⟩]⟩
    ⟨[⟨0, ["h1 (Pool 0)"], "", []⟩, ⟨1, ["h2 (Pool 1)"], "", []⟩], "UP"⟩ rfl⟩

/-! ## Claim correlation -/

/-- Entry by entry, a successful GetPxPvcs call pairs each claim with its
resolved volume and with the references of the pods of its namespace that name
it. -/
theorem GetPxPvcs_entries (vs : VolumeSet) (pi : PodIndex) (claims : List Claim)
    (out : List CorrelatedClaim) (h : GetPxPvcs vs pi claims = .ok out) :
    List.Forall₂ (fun c cc => cc.Name = c.Name ∧ cc.Namespace = c.Namespace ∧
        vs.byName c.VolumeName = some cc.Volume ∧
        cc.PodNames =
          (pi.pods.filter
            (fun p => decide (p.Namespace = c.Namespace ∧ c.Name ∈ p.Volumes))).map
            (fun p => p.Namespace ++ "/" ++ p.Name))
      claims out := by
  induction claims generalizing out with
  | nil =>
    unfold GetPxPvcs at h
    cases h
    exact List.Forall₂.nil
  | cons c rest ih =>
    unfold GetPxPvcs at h
    split at h
    · cases h
    · next v hv =>
      unfold PodIndex.podsUsingClaim at h
      dsimp only at h
      split at h
      · cases h
      · next more hmore =>
        cases h
        refine List.Forall₂.cons ⟨rfl, rfl, hv, ?_⟩ (ih more hmore)
        dsimp only
        rw [List.filter_filter]
        congr 1
        apply List.filter_congr
        intro p _
        simp [Bool.and_comm]

/-- Every entry of a pairing of two lists has a partner in the first list. -/
theorem forall₂_partner {α β : Type} {R : α → β → Prop} {l₁ : List α} {l₂ : List β}
    (h : List.Forall₂ R l₁ l₂) : ∀ b ∈ l₂, ∃ a ∈ l₁, R a b := by
  induction h with
  | nil => intro b hb; cases hb
  | cons hab _ ih =>
    intro b hb
    rcases List.mem_cons.1 hb with e | hm
    · subst e
      exact ⟨_, List.mem_cons_self _ _, hab⟩
    · obtain ⟨a, ha, hr⟩ := ih b hm
      exact ⟨a, List.mem_cons_of_mem _ ha, hr⟩

/-- C10: when GetPxPvcs succeeds, its entries correspond one to one and in order to
the claims, each carrying the name and namespace of its claim and the volume
the bound volume name resolves to. The PodNames of an entry are exactly the
namespace/name strings, in pod order, of the pods whose volume-mount specs
reference the claim, that is the pods of the namespace of the claim with a
mount spec naming it: no such pod is missing, and every listed string is that
of a pod which lies in the namespace of the claim and uses its backing volume,
having a mount spec that names a claim of its own namespace bound to the
volume of the entry. -/
theorem GetPxPvcs_pod_names_exactly_pods_of_claim (vs : VolumeSet) (pi : PodIndex)
    (claims : List Claim) (out : List CorrelatedClaim)
    (h : GetPxPvcs vs pi claims = .ok out) :
    List.Forall₂ (fun c cc => cc.Name = c.Name ∧ cc.Namespace = c.Namespace ∧
        vs.byName c.VolumeName = some cc.Volume ∧
        cc.PodNames =
          (pi.pods.filter
            (fun p => decide (p.Namespace = c.Namespace ∧ c.Name ∈ p.Volumes))).map
            (fun p => p.Namespace ++ "/" ++ p.Name) ∧
        (∀ p ∈ pi.pods, p.Namespace = c.Namespace → c.Name ∈ p.Volumes →
          p.Namespace ++ "/" ++ p.Name ∈ cc.PodNames))
      claims out ∧
    (∀ cc ∈ out, ∀ s ∈ cc.PodNames,
      ∃ p ∈ pi.pods, s = p.Namespace ++ "/" ++ p.Name ∧ p.Namespace = cc.Namespace ∧
        ∃ c ∈ claims, c.Name = cc.Name ∧ c.Namespace = p.Namespace ∧
          c.Name ∈ p.Volumes ∧ vs.byName c.VolumeName = some cc.Volume) := by
  have hent := GetPxPvcs_entries vs pi claims out h
  constructor
  · refine hent.imp ?_
    rintro c cc ⟨h1, h2, h3, h4⟩
    refine ⟨h1, h2, h3, h4, fun p hp hns hname => ?_⟩
    rw [h4]
    refine List.mem_map.2 ⟨p, List.mem_filter.2 ⟨hp, ?_⟩, rfl⟩
    simp [hns, hname]
  · intro cc hcc s hs
    obtain ⟨c, hc, h1, h2, h3, h4⟩ := forall₂_partner hent cc hcc
    rw [h4] at hs
    obtain ⟨p, hp, hsp⟩ := List.mem_map.1 hs
    have hp2 := List.mem_filter.1 hp
    have hcond : p.Namespace = c.Namespace ∧ c.Name ∈ p.Volumes := by
      simpa using hp2.2
    exact ⟨p, hp2.1, hsp.symm, hcond.1.trans h2.symm, c, hc, h1.symm, hcond.1.symm,
      hcond.2, h3⟩

/-- Witness for C10: the claim C1 of namespace ns is bound to V1; the pod P1 of
namespace ns and the pod P2 of namespace other both have a mount spec naming
C1, and the pod P3 of namespace ns names another claim. Only ns/P1 is listed. -/
theorem GetPxPvcs_pod_names_exactly_pods_of_claim_witness :
    GetPxPvcs ⟨[⟨"id1", "V1", "A", "UP", []⟩]⟩
        ⟨[⟨"ns", "P1", ["C1"], [⟨"app", ["C1"]⟩]⟩, ⟨"other", "P2", ["C1"], [⟨"app", ["C1"]⟩]⟩,
          ⟨"ns", "P3", ["C9"], [⟨"app", ["C9"]⟩]⟩]⟩
        [⟨"ns", "C1", "V1"⟩] =
      .ok [⟨"C1", "ns", ⟨"id1", "V1", "A", "UP", []⟩, ["ns/P1"]⟩] ∧
    (∀ cc ∈ [(⟨"C1", "ns", ⟨"id1", "V1", "A", "UP", []⟩, ["ns/P1"]⟩ : CorrelatedClaim)],
      ∀ s ∈ cc.PodNames,
      ∃ p ∈ (⟨[⟨"ns", "P1", ["C1"], [⟨"app", ["C1"]⟩]⟩,
               ⟨"other", "P2", ["C1"], [⟨"app", ["C1"]⟩]⟩,
               ⟨"ns", "P3", ["C9"], [⟨"app", ["C9"]⟩]⟩]⟩ : PodIndex).pods,
        s = p.Namespace ++ "/" ++ p.Name ∧ p.Namespace = cc.Namespace ∧
        ∃ c ∈ [(⟨"ns", "C1", "V1"⟩ : Claim)], c.Name = cc.Name ∧ c.Namespace = p.Namespace ∧
          c.Name ∈ p.Volumes ∧
          (⟨[⟨"id1", "V1", "A", "UP", []⟩]⟩ : VolumeSet).byName c.VolumeName =
            some cc.Volume) :=
  ⟨rfl,
   (GetPxPvcs_pod_names_exactly_pods_of_claim ⟨[⟨"id1", "V1", "A", "UP", []⟩]⟩
      ⟨[⟨"ns", "P1", ["C1"], [⟨"app", ["C1"]⟩]⟩, ⟨"other", "P2", ["C1"], [⟨"app", ["C1"]⟩]⟩,
        ⟨"ns", "P3", ["C9"], [⟨"app", ["C9"]⟩]⟩]⟩
      [⟨"ns", "C1", "V1"⟩]
      [⟨"C1", "ns", ⟨"id1", "V1", "A", "UP", []⟩, ["ns/P1"]⟩] rfl).2⟩

/-! ## util.ListHaveMatch -/

/-- C11: ListHaveMatch returns true exactly when some string is an element of both
lists, and whenever it returns true the string it returns is an element of both
lists. -/
theorem ListHaveMatch_true_iff_common_element (list candidates : List String) :
    ((ListHaveMatch list candidates).2 = true ↔ ∃ s, s ∈ list ∧ s ∈ candidates) ∧
    ((ListHaveMatch list candidates).2 = true →
      (ListHaveMatch list candidates).1 ∈ list ∧
      (ListHaveMatch list candidates).1 ∈ candidates) := by
  constructor
  · rw [ListHaveMatch_found_iff]
    constructor
    · rintro ⟨c, hc, hl⟩
      exact ⟨c, hl, hc⟩
    · rintro ⟨c, hl, hc⟩
      exact ⟨c, hc, hl⟩
  · rw [ListHaveMatch_eq_find]
    cases h : candidates.find? (fun c => decide (c ∈ list)) with
    | none => simp
    | some m =>
      intro _
      exact ⟨by simpa using List.find?_some h, List.mem_of_find?_eq_some h⟩

/-- Witness for C11: the lists of the test TestListHaveMatchPresent. -/
theorem ListHaveMatch_true_iff_common_element_witness :
    (ListHaveMatch ["node", "drive", "volume", "portworx"] ["portworx", "osd"]).1 ∈
      ["node", "drive", "volume", "portworx"] ∧
    (ListHaveMatch ["node", "drive", "volume", "portworx"] ["portworx", "osd"]).1 ∈
      ["portworx", "osd"] :=
  (ListHaveMatch_true_iff_common_element ["node", "drive", "volume", "portworx"]
    ["portworx", "osd"]).2 (by decide)

/-! ## Plugin handling -/

/-- The first loop of HandlePluginCommand in closed form. -/
theorem nonFlagArgs_eq (cmdArgs : List String) :
    nonFlagArgs cmdArgs =
      (cmdArgs.takeWhile (fun a => !hasDash a)).map dashToUnderscore := by
  induction cmdArgs with
  | nil => rfl
  | cons a rest ih =>
    unfold nonFlagArgs
    by_cases h : hasDash a = true
    · simp [h, List.takeWhile_cons]
    · simp [h, List.takeWhile_cons, ih]

/-- The first n rewritten non-flag arguments are the first n arguments, rewritten. -/
theorem nonFlagArgs_take (cmdArgs : List String) (n : Nat)
    (hn : n ≤ (nonFlagArgs cmdArgs).length) :
    (nonFlagArgs cmdArgs).take n = (cmdArgs.take n).map dashToUnderscore := by
  induction cmdArgs generalizing n with
  | nil => simp [nonFlagArgs]
  | cons a rest ih =>
    unfold nonFlagArgs at hn ⊢
    by_cases h : hasDash a = true
    · simp only [h, if_true, List.length_nil, Nat.le_zero] at hn
      subst hn
      simp
    · simp only [h, Bool.false_eq_true, if_false, List.length_cons] at hn ⊢
      cases n with
      | zero => simp
      | succ m =>
        simp only [List.take_succ_cons, List.map_cons]
        rw [ih m (by omega)]

/-- The second loop of HandlePluginCommand: either every lookup from length n
downwards failed, or it stopped at the greatest length k whose lookup is found. -/
theorem findBinary_cases (Lookup : String → String × Bool) (args : List String) (n : Nat) :
    (findBinary Lookup args n = ("", 0) ∧
      ∀ j, 0 < j → j ≤ n → (Lookup ("-".intercalate (args.take j))).2 = false) ∨
    (∃ k, 0 < k ∧ k ≤ n ∧
      findBinary Lookup args n = ((Lookup ("-".intercalate (args.take k))).1, k) ∧
      (Lookup ("-".intercalate (args.take k))).2 = true ∧
      ∀ j, k < j → j ≤ n → (Lookup ("-".intercalate (args.take j))).2 = false) := by
  induction n with
  | zero =>
    left
    exact ⟨rfl, fun j h0 hj => by omega⟩
  | succ n ih =>
    unfold findBinary
    by_cases h : (Lookup ("-".intercalate (args.take (n + 1)))).2 = false
    · simp only [h, if_true]
      rcases ih with ⟨h0, hall⟩ | ⟨k, hk0, hkn, hk, hkt, hall⟩
      · left
        refine ⟨h0, fun j hj0 hj => ?_⟩
        by_cases hj1 : j = n + 1
        · rw [hj1]; exact h
        · exact hall j hj0 (by omega)
      · right
        refine ⟨k, hk0, by omega, hk, hkt, fun j hkj hj => ?_⟩
        by_cases hj1 : j = n + 1
        · rw [hj1]; exact h
        · exact hall j hkj (by omega)
    · right
      simp only [h, if_false]
      refine ⟨n + 1, by omega, Nat.le_refl _, rfl, by simpa using h, fun j hj1 hj2 => by omega⟩

/-- The test strings.HasPrefix(s, "-") holds exactly when the first character of
the string is a dash. -/
theorem hasDash_eq (a : String) : hasDash a = decide (a.data.head? = some '-') := by
  unfold hasDash
  have hd : ("-" : String).data = ['-'] := rfl
  rw [hd]
  cases a.data with
  | nil => rfl
  | cons c cs =>
    by_cases hc : c = '-'
    · subst hc
      simp [List.isPrefixOf]
    · have hc2 : ¬ '-' = c := fun e => hc e.symm
      simp [List.isPrefixOf, hc, hc2]

/-- The first loop of HandlePluginCommand, spelled out on characters: the
arguments before the first one whose first character is a dash, every dash in
them replaced by an underscore. -/
theorem nonFlagArgs_spelled_out (cmdArgs : List String) :
    nonFlagArgs cmdArgs =
      (cmdArgs.takeWhile (fun a => decide (a.data.head? ≠ some '-'))).map
        (fun a => String.mk (a.data.map (fun c => if c = '-' then '_' else c))) := by
  rw [nonFlagArgs_eq]
  have hf : (fun a : String => !hasDash a) =
      (fun a : String => decide (a.data.head? ≠ some '-')) := by
    funext a
    rw [hasDash_eq]
    simp
  rw [hf]
  rfl

/-- C14: if HandlePluginCommand executes a plugin, the executed path is the one
Lookup returned for the longest initial part of the leading non-flag arguments
for which Lookup succeeds. The leading non-flag arguments are the arguments
before the first one that begins with a dash, each with every dash replaced by
an underscore; an initial part is looked up under its members joined with
dashes. For some k the lookup of the first k of them gave the executed path
with found true, and the lookup of every strictly longer initial part
failed. -/
theorem HandlePluginCommand_executes_longest_match (w : PluginWorld) (h : PluginHandler)
    (cmdArgs : List String) (names : List String)
    (hnames : names =
      (cmdArgs.takeWhile (fun a => decide (a.data.head? ≠ some '-'))).map
        (fun a => String.mk (a.data.map (fun c => if c = '-' then '_' else c))))
    (path : String) (args env : List String)
    (hex : (path, args, env) ∈ (HandlePluginCommand w h cmdArgs).executed) :
    ∃ k, 0 < k ∧ k ≤ names.length ∧
      h.Lookup ("-".intercalate (names.take k)) = (path, true) ∧
      ∀ j, k < j → j ≤ names.length →
        (h.Lookup ("-".intercalate (names.take j))).2 = false := by
  rw [← nonFlagArgs_spelled_out] at hnames
  subst hnames
  unfold HandlePluginCommand at hex
  dsimp only at hex
  rcases findBinary_cases h.Lookup (nonFlagArgs cmdArgs) (nonFlagArgs cmdArgs).length with
    ⟨h0, _⟩ | ⟨k, hk0, hkn, hk, hkt, hall⟩
  · simp [h0] at hex
  · rw [hk] at hex
    dsimp only at hex
    split at hex
    · simp at hex
    · split at hex
      · simp at hex
      · simp only [List.mem_singleton, Prod.mk.injEq] at hex
        refine ⟨k, hk0, hkn, ?_, hall⟩
        rw [hex.1]
        exact Prod.ext rfl hkt

/-- Witness for C14: the handler knows the plugin name foo-bar_baz only. The
arguments foo and bar-baz precede the first flag, the dash of bar-baz is
replaced, the lookup of foo-bar_baz succeeds, and HandlePluginCommand executes
the path that lookup gave, relaying the arguments from the flag on. -/
theorem HandlePluginCommand_executes_longest_match_witness :
    HandlePluginCommand plainWorld barBazHandler ["foo", "bar-baz", "--flag", "x-y"] =
      { executed := [("/usr/bin/pxc-foo-bar_baz", ["--flag", "x-y"],
          ["HOME=/root", "PXC_KUBECTL_PLUGIN_MODE=false", "PXC_TOKEN=tok",
           "PXC_PORTWORX_SERVICE_NAME=portworx-api",
           "PXC_PORTWORX_SERVICE_NAMESPACE=kube-system", "PXC_PORTWORX_SERVICE_PORT=9020"])],
        err := none } ∧
    ∃ k, 0 < k ∧ k ≤ ["foo", "bar_baz"].length ∧
      barBazHandler.Lookup ("-".intercalate (["foo", "bar_baz"].take k)) =
        ("/usr/bin/pxc-foo-bar_baz", true) ∧
      ∀ j, k < j → j ≤ ["foo", "bar_baz"].length →
        (barBazHandler.Lookup ("-".intercalate (["foo", "bar_baz"].take j))).2 = false :=
  ⟨by decide,
   HandlePluginCommand_executes_longest_match plainWorld barBazHandler
    ["foo", "bar-baz", "--flag", "x-y"] ["foo", "bar_baz"] (by decide)
    "/usr/bin/pxc-foo-bar_baz" ["--flag", "x-y"]
    ["HOME=/root", "PXC_KUBECTL_PLUGIN_MODE=false", "PXC_TOKEN=tok",
     "PXC_PORTWORX_SERVICE_NAME=portworx-api", "PXC_PORTWORX_SERVICE_NAMESPACE=kube-system",
     "PXC_PORTWORX_SERVICE_PORT=9020"] (by decide)⟩

/-- C15: DefaultPluginHandler.Lookup returns the resolution of the name made of
prefix, dash and filename for the first prefix, in list order, for which that
name is found on the PATH or, failing that, under the bin directory of the
configuration directory, together with true; it returns the empty path and
false exactly when no prefix resolves in either place. -/
theorem DefaultPluginHandler_Lookup_first_resolving
    (LookPath : String → String × Option String) (Join : List String → String)
    (ConfigDir : String) (ValidPrefixes : List String) (filename : String) :
    DefaultPluginHandler.Lookup LookPath Join ConfigDir ValidPrefixes filename =
      (match ValidPrefixes.findSome?
          (fun pre => resolvePlugin LookPath Join ConfigDir (pre ++ "-" ++ filename)) with
       | some path => (path, true)
       | none => ("", false)) ∧
    (DefaultPluginHandler.Lookup LookPath Join ConfigDir ValidPrefixes filename = ("", false) ↔
      ∀ pre ∈ ValidPrefixes,
        resolvePlugin LookPath Join ConfigDir (pre ++ "-" ++ filename) = none) := by
  induction ValidPrefixes with
  | nil => simp [DefaultPluginHandler.Lookup]
  | cons pre rest ih =>
    unfold DefaultPluginHandler.Lookup
    simp only [List.findSome?_cons, List.mem_cons, forall_eq_or_imp]
    unfold resolvePlugin
    by_cases h1 : (LookPath (pre ++ "-" ++ filename)).2 = none ∧
        (LookPath (pre ++ "-" ++ filename)).1 ≠ ""
    · have h1n : ¬ ((LookPath (pre ++ "-" ++ filename)).2 ≠ none ∨
          (LookPath (pre ++ "-" ++ filename)).1 = "") := by
        rintro (h | h)
        · exact h h1.1
        · exact h1.2 h
      simp [h1, h1n]
    · have h1n : (LookPath (pre ++ "-" ++ filename)).2 ≠ none ∨
          (LookPath (pre ++ "-" ++ filename)).1 = "" := by
        by_cases hn : (LookPath (pre ++ "-" ++ filename)).2 = none
        · right
          by_contra hne
          exact h1 ⟨hn, hne⟩
        · left
          exact hn
      by_cases h2 : (LookPath (Join [ConfigDir, "bin", pre ++ "-" ++ filename])).2 = none ∧
          (LookPath (Join [ConfigDir, "bin", pre ++ "-" ++ filename])).1 ≠ ""
      · have h2n : ¬ ((LookPath (Join [ConfigDir, "bin", pre ++ "-" ++ filename])).2 ≠ none ∨
            (LookPath (Join [ConfigDir, "bin", pre ++ "-" ++ filename])).1 = "") := by
          rintro (h | h)
          · exact h h2.1
          · exact h2.2 h
        simp [h1, h1n, h2, h2n]
      · have h2n : (LookPath (Join [ConfigDir, "bin", pre ++ "-" ++ filename])).2 ≠ none ∨
            (LookPath (Join [ConfigDir, "bin", pre ++ "-" ++ filename])).1 = "" := by
          by_cases hn : (LookPath (Join [ConfigDir, "bin", pre ++ "-" ++ filename])).2 = none
          · right
            by_contra hne
            exact h2 ⟨hn, hne⟩
          · left
            exact hn
        simp only [h1, h1n, h2, h2n, if_true, if_false, true_and]
        exact ih

/-- C16, counterexample: the handler finds the plugin foo using the first argument
as its name, the token is to be read from a secret and the secret cannot be
fetched. HandlePluginCommand returns that error and Execute is not called. -/
theorem HandlePluginCommand_found_but_not_executed :
    findBinary fooHandler.Lookup (nonFlagArgs ["foo", "bar-baz", "--flag", "x-y"])
        (nonFlagArgs ["foo", "bar-baz", "--flag", "x-y"]).length =
      ("/usr/bin/pxc-foo", 1) ∧
    HandlePluginCommand secretWorld fooHandler ["foo", "bar-baz", "--flag", "x-y"] =
      { executed := [], err := some "secret not found" } := by
  refine ⟨by decide, by decide⟩

/-- C16, amended: when the second loop of HandlePluginCommand ends with a non-empty
path found for the first k arguments as name, then, if the token is obtained
(no secret is configured, or reading the secret succeeds), Execute is called
exactly once, with the found path, with exactly cmdArgs[k:] unmodified and in
order, and with the environment extended by the five variables, so that the k
name arguments followed by the relayed arguments are cmdArgs, and the error of
Execute is returned; if reading the configured secret fails, that error is
returned and Execute is not called. -/
theorem HandlePluginCommand_relays_remaining_args (w : PluginWorld) (h : PluginHandler)
    (cmdArgs : List String) (path : String) (k : Nat)
    (hfound : findBinary h.Lookup (nonFlagArgs cmdArgs) (nonFlagArgs cmdArgs).length =
      (path, k))
    (hpath : path ≠ "") :
    h.Lookup ("-".intercalate ((cmdArgs.take k).map dashToUnderscore)) = (path, true) ∧
    cmdArgs.take k ++ cmdArgs.drop k = cmdArgs ∧
    (∀ token : String,
      (if w.authInfo.KubernetesAuthInfo.SecretName ≠ "" ∧
          w.authInfo.KubernetesAuthInfo.SecretNamespace ≠ "" then
        PxGetTokenFromSecret w.store w.authInfo.KubernetesAuthInfo.SecretName
          w.authInfo.KubernetesAuthInfo.SecretNamespace
       else Except.ok w.authInfo.Token) = Except.ok token →
      HandlePluginCommand w h cmdArgs =
        { executed := [(path, cmdArgs.drop k,
            w.Environ ++ [w.names.EvInKubectlPluginMode ++ "=" ++ toString w.InKubectlPluginMode]
              ++ [w.names.EvPxcToken ++ "=" ++ token]
              ++ [w.names.EvPortworxServiceName ++ "=" ++ w.currentCluster.TunnelServiceName]
              ++ [w.names.EvPortworxServiceNamespace ++ "=" ++
                    w.currentCluster.TunnelServiceNamespace]
              ++ [w.names.EvPortworxServicePort ++ "=" ++ w.currentCluster.TunnelServicePort])],
          err := h.Execute path (cmdArgs.drop k)
            (w.Environ ++ [w.names.EvInKubectlPluginMode ++ "=" ++ toString w.InKubectlPluginMode]
              ++ [w.names.EvPxcToken ++ "=" ++ token]
              ++ [w.names.EvPortworxServiceName ++ "=" ++ w.currentCluster.TunnelServiceName]
              ++ [w.names.EvPortworxServiceNamespace ++ "=" ++
                    w.currentCluster.TunnelServiceNamespace]
              ++ [w.names.EvPortworxServicePort ++ "=" ++
                    w.currentCluster.TunnelServicePort]) }) ∧
    (∀ e : String,
      (if w.authInfo.KubernetesAuthInfo.SecretName ≠ "" ∧
          w.authInfo.KubernetesAuthInfo.SecretNamespace ≠ "" then
        PxGetTokenFromSecret w.store w.authInfo.KubernetesAuthInfo.SecretName
          w.authInfo.KubernetesAuthInfo.SecretNamespace
       else Except.ok w.authInfo.Token) = Except.error e →
      HandlePluginCommand w h cmdArgs = { executed := [], err := some e }) := by
  refine ⟨?_, List.take_append_drop k cmdArgs, ?_, ?_⟩
  · rcases findBinary_cases h.Lookup (nonFlagArgs cmdArgs) (nonFlagArgs cmdArgs).length with
      ⟨h0, _⟩ | ⟨k2, hk0, hkn, hk, hkt, _⟩
    · rw [h0] at hfound
      exact absurd (congrArg Prod.fst hfound).symm hpath
    · rw [hk] at hfound
      have hk2 : k2 = k := congrArg Prod.snd hfound
      have hp : (h.Lookup ("-".intercalate ((nonFlagArgs cmdArgs).take k2))).1 = path :=
        congrArg Prod.fst hfound
      subst hk2
      rw [← nonFlagArgs_take cmdArgs k2 hkn]
      exact Prod.ext hp hkt
  · intro token htoken
    unfold HandlePluginCommand
    simp only [hfound, hpath, if_false, htoken, appendToEnv]
  · intro e htoken
    unfold HandlePluginCommand
    simp only [hfound, hpath, if_false, htoken]

/-- Witness for C16, amended: the plugin foo is found for the first argument, no
secret is configured, and the arguments after foo are relayed as they are. -/
theorem HandlePluginCommand_relays_remaining_args_witness :
    HandlePluginCommand plainWorld fooHandler ["foo", "bar-baz", "--flag", "x-y"] =
      { executed := [("/usr/bin/pxc-foo", ["bar-baz", "--flag", "x-y"],
          ["HOME=/root", "PXC_KUBECTL_PLUGIN_MODE=false", "PXC_TOKEN=tok",
           "PXC_PORTWORX_SERVICE_NAME=portworx-api",
           "PXC_PORTWORX_SERVICE_NAMESPACE=kube-system", "PXC_PORTWORX_SERVICE_PORT=9020"])],
        err := none } ∧
    HandlePluginCommand secretWorld fooHandler ["foo", "bar-baz", "--flag", "x-y"] =
      { executed := [], err := some "secret not found" } :=
  ⟨(HandlePluginCommand_relays_remaining_args plainWorld fooHandler
      ["foo", "bar-baz", "--flag", "x-y"] "/usr/bin/pxc-foo" 1 (by decide) (by decide)).2.2.1
      "tok" rfl,
   (HandlePluginCommand_relays_remaining_args secretWorld fooHandler
      ["foo", "bar-baz", "--flag", "x-y"] "/usr/bin/pxc-foo" 1 (by decide) (by decide)).2.2.2
      "secret not found" rfl⟩

/-- C19: when Lookup fails for every non-empty initial part of the leading non-flag
arguments, HandlePluginCommand returns nil and makes no call of Execute; this
covers an empty argument list and one whose first argument begins with a
dash. -/
theorem HandlePluginCommand_without_plugin (w : PluginWorld) (h : PluginHandler)
    (cmdArgs : List String) (names : List String)
    (hnames : names = (cmdArgs.takeWhile (fun a => !hasDash a)).map dashToUnderscore)
    (hfail : ∀ k, 0 < k → k ≤ names.length →
      (h.Lookup ("-".intercalate (names.take k))).2 = false) :
    HandlePluginCommand w h cmdArgs = { executed := [], err := none } ∧
    HandlePluginCommand w h [] = { executed := [], err := none } ∧
    (∀ arg rest, hasDash arg = true →
      HandlePluginCommand w h (arg :: rest) = { executed := [], err := none }) := by
  have key : ∀ args : List String,
      (∀ k, 0 < k → k ≤ (nonFlagArgs args).length →
        (h.Lookup ("-".intercalate ((nonFlagArgs args).take k))).2 = false) →
      HandlePluginCommand w h args = { executed := [], err := none } := by
    intro args hf
    unfold HandlePluginCommand
    dsimp only
    rcases findBinary_cases h.Lookup (nonFlagArgs args) (nonFlagArgs args).length with
      ⟨h0, _⟩ | ⟨k, hk0, hkn, _, hkt, _⟩
    · simp [h0]
    · rw [hf k hk0 hkn] at hkt
      cases hkt
  rw [← nonFlagArgs_eq] at hnames
  subst hnames
  refine ⟨key cmdArgs hfail, key [] ?_, fun arg rest hd => key (arg :: rest) ?_⟩
  · intro k hk0 hk
    simp [nonFlagArgs] at hk
    omega
  · intro k hk0 hk
    simp [nonFlagArgs, hd] at hk
    omega

/-- Witness for C19: a handler that knows no plugin, asked for foo bar. -/
theorem HandlePluginCommand_without_plugin_witness :
    HandlePluginCommand plainWorld emptyHandler ["foo", "bar", "--flag"] =
      { executed := [], err := none } :=
  (HandlePluginCommand_without_plugin plainWorld emptyHandler ["foo", "bar", "--flag"]
    ["foo", "bar"] (by decide) (fun _ _ _ => rfl)).1

/-! ## Connecting to the orchestrator -/

/-- The first character of a string remains the first character when more text
is appended. -/
theorem data_head_append {a : String} {c : Char} (x : String)
    (h : a.data.head? = some c) : (a ++ x).data.head? = some c := by
  rw [String.data_append]
  cases hd : a.data with
  | nil => simp [hd] at h
  | cons y ys =>
    simp only [hd, List.head?_cons, Option.some.injEq] at h
    simp [h]

/-- The errors raised after the kubeconfig path is chosen never read as the
error about a missing kubeconfig. -/
theorem kubeClientFor_ne_no_kubeconfig (w : KubeWorld) (kubeconfig rest : String) :
    kubeClientFor w kubeconfig ≠ .error ("No kubeconfig found in context " ++ rest) := by
  have hN : ("No kubeconfig found in context " ++ rest).data.head? = some 'N' :=
    data_head_append rest rfl
  intro h
  unfold kubeClientFor at h
  split at h
  · next err _ =>
    have e := congrArg (fun s : String => s.data.head?) (Except.error.inj h)
    have hU : ("Unable to configure kubernetes client: " ++ err ++ "\n").data.head? =
        some 'U' := data_head_append "\n" (data_head_append err rfl)
    simp only [hU, hN, Option.some.injEq] at e
    exact absurd e (by decide)
  · split at h
    · next err _ =>
      have e := congrArg (fun s : String => s.data.head?) (Except.error.inj h)
      have hU : ("Unable to connect to Kubernetes: " ++ err ++ "\n").data.head? =
          some 'U' := data_head_append "\n" (data_head_append err rfl)
      simp only [hU, hN, Option.some.injEq] at e
      exact absurd e (by decide)
    · cases h

/-- C18: KubeConnect loads the current context when its context argument is empty
and the named context otherwise, and an error of the loading is returned as
it is. Once the context is loaded, the kubeconfig path in use is the
Kubeconfig of the context when that is non-empty and the value of the
environment variable KUBECONFIG otherwise; the call fails with the error No
kubeconfig found in context when both are empty, and in no other case does it
return an error that reads so. -/
theorem KubeConnect_context_and_kubeconfig (w : KubeWorld) (cfgFile context : String) :
    KubeConnect w cfgFile "" =
      (match w.GetCurrent cfgFile with
       | .error e => .error e
       | .ok pxctx => kubeConnectWith w pxctx) ∧
    (context ≠ "" →
      KubeConnect w cfgFile context =
        (match w.GetNamedContext cfgFile context with
         | .error e => .error e
         | .ok pxctx => kubeConnectWith w pxctx)) ∧
    (∀ pxctx : ClientContext,
      (pxctx.Kubeconfig ≠ "" →
        kubeConnectWith w pxctx = kubeClientFor w pxctx.Kubeconfig) ∧
      (pxctx.Kubeconfig = "" → w.Getenv "KUBECONFIG" ≠ "" →
        kubeConnectWith w pxctx = kubeClientFor w (w.Getenv "KUBECONFIG")) ∧
      (pxctx.Kubeconfig = "" ∧ w.Getenv "KUBECONFIG" = "" →
        kubeConnectWith w pxctx =
          .error ("No kubeconfig found in context " ++ pxctx.Name ++ "\n")) ∧
      (∀ rest : String,
        kubeConnectWith w pxctx = .error ("No kubeconfig found in context " ++ rest) →
        pxctx.Kubeconfig = "" ∧ w.Getenv "KUBECONFIG" = "")) := by
  refine ⟨?_, ?_, ?_⟩
  · unfold KubeConnect
    simp only [if_true]
  · intro hne
    unfold KubeConnect
    simp only [hne, if_false]
  · intro pxctx
    have hset : pxctx.Kubeconfig ≠ "" →
        kubeConnectWith w pxctx = kubeClientFor w pxctx.Kubeconfig := by
      intro hk
      unfold kubeConnectWith
      simp only [hk, if_false]
    have henv : pxctx.Kubeconfig = "" → w.Getenv "KUBECONFIG" ≠ "" →
        kubeConnectWith w pxctx = kubeClientFor w (w.Getenv "KUBECONFIG") := by
      intro hk he
      unfold kubeConnectWith
      simp only [hk, he, if_true, if_false]
    refine ⟨hset, henv, ?_, ?_⟩
    · rintro ⟨hk, he⟩
      unfold kubeConnectWith
      simp only [hk, he, if_true]
    · intro rest h
      by_cases hk : pxctx.Kubeconfig = ""
      · by_cases he : w.Getenv "KUBECONFIG" = ""
        · exact ⟨hk, he⟩
        · rw [henv hk he] at h
          exact absurd h (kubeClientFor_ne_no_kubeconfig w _ rest)
      · rw [hset hk] at h
        exact absurd h (kubeClientFor_ne_no_kubeconfig w _ rest)

/-- Witness for C18: without a context argument the current context is used, and
with neither a kubeconfig in it nor in the environment the call fails; the
named context lab brings its own kubeconfig, which is the path in use. -/
theorem KubeConnect_context_and_kubeconfig_witness :
    KubeConnect plainKube "config.yml" "" =
      .error "No kubeconfig found in context default\n" ∧
    KubeConnect plainKube "config.yml" "lab" = .ok ("/etc/lab.conf", 7) :=
  ⟨((KubeConnect_context_and_kubeconfig plainKube "config.yml" "").1).trans
      (((KubeConnect_context_and_kubeconfig plainKube "config.yml" "").2.2
        { Name := "default", Kubeconfig := "" }).2.2.1 ⟨rfl, rfl⟩),
   (((KubeConnect_context_and_kubeconfig plainKube "config.yml" "lab").2.1
      (by decide)).trans
      (((KubeConnect_context_and_kubeconfig plainKube "config.yml" "lab").2.2
        { Name := "lab", Kubeconfig := "/etc/lab.conf" }).1 (by decide))).trans rfl⟩

/-! ## Connecting to the storage cluster -/

/-- C17: evaluation at the failing input. The system certificate pool loads, the
CA data of the cluster is not a certificate and is refused by the pool, and
PxAppendCaCertcontext returns neither dial options nor an error;
PxConnectDefault goes on to connect and returns a connection without error. -/
theorem PxAppendCaCertcontext_refused_ca_without_error :
    badCaWorld.currentCluster.CACertData ≠ "" ∧
    (loadedX509.AppendCertsFromPEM loadedX509.SystemCertPool.1
      badCaWorld.currentCluster.CACertData).2 = false ∧
    PxAppendCaCertcontext loadedX509 badCaWorld.currentCluster = ([], none) ∧
    (PxConnectDefault badCaWorld).err = none ∧
    (PxConnectDefault badCaWorld).conn = some 1 := by
  refine ⟨by decide, by decide, by decide, by decide, by decide⟩

/-- C20: evaluation at the failing input. The CA data of the current cluster is
non-empty, and PxConnectDefault dials once with an empty list of dial options,
which holds no transport credentials. -/
theorem PxConnectDefault_dials_without_credentials :
    badCaWorld.currentCluster.CACertData ≠ "" ∧
    (PxConnectDefault badCaWorld).dialed = [("portworx:9020", [])] ∧
    (∀ opts ∈ (PxConnectDefault badCaWorld).dialed,
      ∀ pool : CertPool, DialOption.WithTransportCredentials pool ∉ opts.2) := by
  refine ⟨by decide, by decide, ?_⟩
  have h : (PxConnectDefault badCaWorld).dialed = [("portworx:9020", [])] := by decide
  intro opts hopts pool
  rw [h] at hopts
  simp only [List.mem_singleton] at hopts
  subst hopts
  simp

/-! ## The token rule in PxConnectDefault and HandlePluginCommand -/

/-- The course of PxConnectDefault: either no dial is made and an error is
returned, or one dial is made and the outcome follows from the connection
attempt and from the token rule. -/
theorem PxConnectDefault_cases (w : ConnectWorld) :
    ((PxConnectDefault w).dialed = [] ∧ (PxConnectDefault w).err ≠ none) ∨
    (∃ endpoint opts, (PxConnectDefault w).dialed = [(endpoint, opts)] ∧
      ((∃ e, w.Connect endpoint opts = .error e ∧
          PxConnectDefault w =
            { dialed := [(endpoint, opts)], ctx := none, conn := none, err := some e }) ∨
       (∃ conn e, w.Connect endpoint opts = .ok conn ∧
          selectToken w.authInfo w.store = .error e ∧
          PxConnectDefault w =
            { dialed := [(endpoint, opts)], ctx := none, conn := none, err := some e }) ∨
       (∃ conn t, w.Connect endpoint opts = .ok conn ∧
          selectToken w.authInfo w.store = .ok t ∧
          PxConnectDefault w =
            { dialed := [(endpoint, opts)],
              ctx := some (if t ≠ "" then [("authorization", "bearer " ++ t)] else []),
              conn := some conn, err := none }))) := by
  unfold PxConnectDefault selectToken
  dsimp only
  split
  · left
    simp
  · split
    · left
      simp
    · right
      split
      · next e he =>
        exact ⟨_, _, rfl, Or.inl ⟨e, he, rfl⟩⟩
      · next conn hc =>
        split
        · next e he =>
          exact ⟨_, _, rfl, Or.inr (Or.inl ⟨conn, e, hc, he, rfl⟩)⟩
        · next t ht =>
          exact ⟨_, _, rfl, Or.inr (Or.inr ⟨conn, t, hc, ht, rfl⟩)⟩

/-- C21: when PxConnectDefault succeeds, the token rule gave a token t (read from
the secret when secret name and secret namespace are both configured, the
configured token otherwise) and the returned context carries the metadata
authorization with the value bearer followed by t exactly when t is
non-empty, carrying no metadata when t is empty. When the token rule fails,
PxConnectDefault returns an error, which is the error of the rule once the
connection is made. HandlePluginCommand selects the token by the same rule:
every call of Execute receives the token of the rule in the environment, and
when the rule fails no call of Execute is made and a found plugin makes the
call return the error of the rule. -/
theorem token_rule_in_PxConnectDefault_and_HandlePluginCommand :
    (∀ w : ConnectWorld, (PxConnectDefault w).err = none →
      ∃ (t : String) (md : List (String × String)),
        selectToken w.authInfo w.store = .ok t ∧
        (PxConnectDefault w).ctx = some md ∧
        md = (if t ≠ "" then [("authorization", "bearer " ++ t)] else []) ∧
        (md.lookup "authorization" = some ("bearer " ++ t) ↔ t ≠ "")) ∧
    (∀ (w : ConnectWorld) (e : String), selectToken w.authInfo w.store = .error e →
      (PxConnectDefault w).err ≠ none ∧
      ∀ (endpoint : String) (opts : List DialOption) (conn : Nat),
        (PxConnectDefault w).dialed = [(endpoint, opts)] →
        w.Connect endpoint opts = .ok conn →
        PxConnectDefault w =
          { dialed := [(endpoint, opts)], ctx := none, conn := none, err := some e }) ∧
    (∀ (w : PluginWorld) (h : PluginHandler) (cmdArgs : List String) (path : String)
        (args env : List String),
      (path, args, env) ∈ (HandlePluginCommand w h cmdArgs).executed →
      ∃ t : String, selectToken w.authInfo w.store = .ok t ∧
        env = w.Environ ++
          [w.names.EvInKubectlPluginMode ++ "=" ++ toString w.InKubectlPluginMode,
           w.names.EvPxcToken ++ "=" ++ t,
           w.names.EvPortworxServiceName ++ "=" ++ w.currentCluster.TunnelServiceName,
           w.names.EvPortworxServiceNamespace ++ "=" ++ w.currentCluster.TunnelServiceNamespace,
           w.names.EvPortworxServicePort ++ "=" ++ w.currentCluster.TunnelServicePort]) ∧
    (∀ (w : PluginWorld) (h : PluginHandler) (cmdArgs : List String) (e : String),
      selectToken w.authInfo w.store = .error e →
      (HandlePluginCommand w h cmdArgs).executed = [] ∧
      ((findBinary h.Lookup (nonFlagArgs cmdArgs) (nonFlagArgs cmdArgs).length).1 ≠ "" →
        HandlePluginCommand w h cmdArgs = { executed := [], err := some e })) := by
  refine ⟨?_, ?_, ?_, ?_⟩
  · intro w herr
    rcases PxConnectDefault_cases w with ⟨_, hne⟩ | ⟨endpoint, opts, _, hcase⟩
    · exact absurd herr hne
    · rcases hcase with ⟨e, _, hrun⟩ | ⟨conn, e, _, _, hrun⟩ | ⟨conn, t, _, ht, hrun⟩
      · rw [hrun] at herr
        cases herr
      · rw [hrun] at herr
        cases herr
      · refine ⟨t, _, ht, by rw [hrun], rfl, ?_⟩
        by_cases h0 : t = ""
        · simp [h0]
        · simp [h0, List.lookup]
  · intro w e he
    rcases PxConnectDefault_cases w with ⟨hd, hne⟩ | ⟨endpoint, opts, hd, hcase⟩
    · refine ⟨hne, fun endpoint opts conn hdial _ => ?_⟩
      rw [hd] at hdial
      cases hdial
    · rcases hcase with ⟨e2, hc, hrun⟩ | ⟨conn, e2, hc, ht, hrun⟩ | ⟨conn, t, _, ht, _⟩
      · refine ⟨by rw [hrun]; simp, fun endpoint2 opts2 conn2 hdial hconn => ?_⟩
        rw [hd] at hdial
        simp only [List.cons.injEq, Prod.mk.injEq, and_true] at hdial
        rw [← hdial.1, ← hdial.2, hc] at hconn
        cases hconn
      · rw [he] at ht
        cases ht
        refine ⟨by rw [hrun]; simp, fun endpoint2 opts2 conn2 hdial _ => ?_⟩
        rw [hd] at hdial
        simp only [List.cons.injEq, Prod.mk.injEq, and_true] at hdial
        rw [← hdial.1, ← hdial.2]
        exact hrun
      · rw [he] at ht
        cases ht
  · intro w h cmdArgs path args env hex
    unfold HandlePluginCommand at hex
    unfold selectToken
    dsimp only at hex
    split at hex
    · simp at hex
    · split at hex
      · simp at hex
      · next token htoken =>
        simp only [List.mem_singleton, Prod.mk.injEq] at hex
        refine ⟨token, htoken, ?_⟩
        rw [hex.2.2]
        simp [appendToEnv]
  · intro w h cmdArgs e he
    unfold selectToken at he
    constructor
    · unfold HandlePluginCommand
      dsimp only
      split
      · rfl
      · simp only [he]
    · intro hpath
      unfold HandlePluginCommand
      simp only [hpath, if_false, he]

/-- Witness for C21: with the secret px-token configured and readable the context
carries the token of the secret, not the configured one; with the secret lost
the call returns the error of the read after connecting; a plugin receives the
token of the secret, and none is executed when the secret is lost. -/
theorem token_rule_in_PxConnectDefault_and_HandlePluginCommand_witness :
    (∃ (t : String) (md : List (String × String)),
      selectToken secretConnectWorld.authInfo secretConnectWorld.store = .ok t ∧
      (PxConnectDefault secretConnectWorld).ctx = some md ∧
      md = (if t ≠ "" then [("authorization", "bearer " ++ t)] else []) ∧
      (md.lookup "authorization" = some ("bearer " ++ t) ↔ t ≠ "")) ∧
    PxConnectDefault lostSecretConnectWorld =
      { dialed := [("portworx:9020", [DialOption.WithInsecure])], ctx := none, conn := none,
        err := some "secret not found" } ∧
    (∃ t : String, selectToken tokenPluginWorld.authInfo tokenPluginWorld.store = .ok t ∧
      ["HOME=/root", "PXC_KUBECTL_PLUGIN_MODE=false", "PXC_TOKEN=sekret",
       "PXC_PORTWORX_SERVICE_NAME=portworx-api", "PXC_PORTWORX_SERVICE_NAMESPACE=kube-system",
       "PXC_PORTWORX_SERVICE_PORT=9020"] =
        tokenPluginWorld.Environ ++
          [tokenPluginWorld.names.EvInKubectlPluginMode ++ "=" ++
             toString tokenPluginWorld.InKubectlPluginMode,
           tokenPluginWorld.names.EvPxcToken ++ "=" ++ t,
           tokenPluginWorld.names.EvPortworxServiceName ++ "=" ++
             tokenPluginWorld.currentCluster.TunnelServiceName,
           tokenPluginWorld.names.EvPortworxServiceNamespace ++ "=" ++
             tokenPluginWorld.currentCluster.TunnelServiceNamespace,
           tokenPluginWorld.names.EvPortworxServicePort ++ "=" ++
             tokenPluginWorld.currentCluster.TunnelServicePort]) ∧
    HandlePluginCommand secretWorld fooHandler ["foo", "-v"] =
      { executed := [], err := some "secret not found" } :=
  ⟨token_rule_in_PxConnectDefault_and_HandlePluginCommand.1 secretConnectWorld (by decide),
   (token_rule_in_PxConnectDefault_and_HandlePluginCommand.2.1 lostSecretConnectWorld
      "secret not found" rfl).2 "portworx:9020" [DialOption.WithInsecure] 1 (by decide) rfl,
   token_rule_in_PxConnectDefault_and_HandlePluginCommand.2.2.1 tokenPluginWorld fooHandler
      ["foo", "-v"] "/usr/bin/pxc-foo" ["-v"]
      ["HOME=/root", "PXC_KUBECTL_PLUGIN_MODE=false", "PXC_TOKEN=sekret",
       "PXC_PORTWORX_SERVICE_NAME=portworx-api", "PXC_PORTWORX_SERVICE_NAMESPACE=kube-system",
       "PXC_PORTWORX_SERVICE_PORT=9020"] (by decide),
   (token_rule_in_PxConnectDefault_and_HandlePluginCommand.2.2.2 secretWorld fooHandler
      ["foo", "-v"] "secret not found" rfl).2 (by decide)⟩

end Px
